import Mathlib

/-! # Radar host controller: a shallow embedding of `radarSystem/mainwindow.cpp`

The embedding follows the member functions of `MainWindow` one by one.

* C++ `float` values are embedded as `QFloat`: an exact rational, an infinity or a NaN.
  Rounding, overflow of finite values and the sign of zero are not represented.
* `QString` is embedded as a list of characters.
* The object state of `MainWindow` (members, the static locals of `updateServoAuto`, the
  widgets it writes to, the three timers and the serial port) is the record `State`;
  every slot is a function `State → State`.
* Constants of `mainwindow.h` and properties of `mainwindow.ui`, which are not part of the
  translated source file, are fields of `Config`.
-/

namespace Radar

/-! ## Floating point values -/

/-- C++ `float`/`double` values: a finite value (kept as an exact rational), a signed
infinity, or a NaN. -/
inductive QFloat where
  | fin (q : ℚ)
  | inf (negative : Bool)
  | nan
deriving DecidableEq

namespace QFloat

/-- Unary minus. -/
def neg : QFloat → QFloat
  | fin q => fin (-q)
  | inf s => inf (!s)
  | nan => nan

/-- Addition `a + b` (IEEE special cases, exact on finite values). -/
def add : QFloat → QFloat → QFloat
  | fin a, fin b => fin (a + b)
  | fin _, inf s => inf s
  | inf s, fin _ => inf s
  | inf s, inf t => if s = t then inf s else nan
  | nan, _ => nan
  | _, nan => nan

/-- Subtraction `a - b`. -/
def sub (a b : QFloat) : QFloat := add a (neg b)

/-- Multiplication `a * b` (IEEE special cases, exact on finite values). -/
def mul : QFloat → QFloat → QFloat
  | fin a, fin b => fin (a * b)
  | fin a, inf s => if a = 0 then nan else inf (s != decide (a < 0))
  | inf s, fin b => if b = 0 then nan else inf (s != decide (b < 0))
  | inf s, inf t => inf (s != t)
  | nan, _ => nan
  | _, nan => nan

/-- Division `a / b`: a finite non-zero value divided by zero is an infinity, zero divided
by zero is a NaN; no exception is raised. -/
def div : QFloat → QFloat → QFloat
  | fin a, fin b =>
      if b = 0 then (if a = 0 then nan else inf (decide (a < 0))) else fin (a / b)
  | fin _, inf _ => fin 0
  | inf s, fin b => inf (s != decide (b < 0))
  | inf _, inf _ => nan
  | nan, _ => nan
  | _, nan => nan

/-- Comparison `a <= b`; false whenever an operand is a NaN. -/
def le : QFloat → QFloat → Bool
  | fin a, fin b => decide (a ≤ b)
  | fin _, inf s => !s
  | inf s, fin _ => s
  | inf s, inf t => s || !t
  | nan, _ => false
  | _, nan => false

/-- Comparison `a < b`; false whenever an operand is a NaN. -/
def lt : QFloat → QFloat → Bool
  | fin a, fin b => decide (a < b)
  | fin _, inf s => !s
  | inf s, fin _ => s
  | inf s, inf t => s && !t
  | nan, _ => false
  | _, nan => false

end QFloat

/-! ## Strings (the `QString` operations used by the source) -/

/-- A `QString`, as its sequence of characters. -/
abbrev QString := List Char

namespace QString

/-- `QString::contains(QChar)`. -/
def contains (s : QString) (c : Char) : Bool := s.elem c

/-- Position of the first `c` at or after the head of `s`, counted from `i`; `-1` if none. -/
def indexOfFrom (c : Char) : QString → Nat → Int
  | [], _ => -1
  | x :: xs, i => if x = c then (i : Int) else indexOfFrom c xs (i + 1)

/-- `QString::indexOf(QChar)`: index of the first occurrence, `-1` if there is none. -/
def indexOf (s : QString) (c : Char) : Int := indexOfFrom c s 0

/-- `QString::left(n)`: the `n` leftmost characters; the whole string if `n` is negative or
not smaller than the size. -/
def left (s : QString) (n : Int) : QString :=
  if n < 0 ∨ (s.length : Int) ≤ n then s else s.take n.toNat

/-- `QString::mid(position)`: the characters from `position` to the end; empty if
`position` exceeds the size. -/
def mid (s : QString) (position : Int) : QString :=
  if (s.length : Int) < position then [] else s.drop position.toNat

/-- `QChar::isSpace`: the ASCII white space characters and the Unicode separators. -/
def isSpace (c : Char) : Bool :=
  let n := c.toNat
  n = 32 || (9 ≤ n && n ≤ 13) || n = 0x85 || n = 0xA0 || n = 0x1680 ||
    (0x2000 ≤ n && n ≤ 0x200A) || n = 0x2028 || n = 0x2029 || n = 0x202F ||
    n = 0x205F || n = 0x3000

/-- `QString::trimmed()`: white space removed from the start and from the end. -/
def trimmed (s : QString) : QString :=
  ((s.dropWhile isSpace).reverse.dropWhile isSpace).reverse

/-- `QString::split(QChar)` with the default `KeepEmptyParts`: the fields between the
separators; a string without separator is a single field. -/
def split (sep : Char) : QString → List QString
  | [] => [[]]
  | c :: cs =>
    if c = sep then [] :: split sep cs
    else
      match split sep cs with
      | f :: fs => (c :: f) :: fs
      | [] => [[c]]

/-- Value of a decimal digit character. -/
def digitVal (c : Char) : Option Nat :=
  if 48 ≤ c.toNat ∧ c.toNat ≤ 57 then some (c.toNat - 48) else none

/-- Reads the leading decimal digits of a string: the number read so far, the count of
digits consumed, and the unread rest. -/
def readDigits : QString → Nat → Nat → Nat × Nat × QString
  | [], acc, n => (acc, n, [])
  | c :: cs, acc, n =>
    match digitVal c with
    | some d => readDigits cs (acc * 10 + d) (n + 1)
    | none => (acc, n, c :: cs)

/-- Reads an optional sign: whether it was a minus, and the unread rest. -/
def readSign : QString → Bool × QString
  | [] => (false, [])
  | c :: cs => if c = '-' then (true, cs) else if c = '+' then (false, cs) else (false, c :: cs)

/-- Reads an exponent part (the text after `e`): optional sign and at least one digit, up
to the end of the text. -/
def readExponent (s : QString) : Option Int :=
  let sg := readSign s
  let ds := readDigits sg.2 0 0
  if ds.2.1 = 0 ∨ ds.2.2 ≠ [] then none
  else some (if sg.1 then -(ds.1 : Int) else (ds.1 : Int))

/-- Decimal number syntax accepted by the conversion in the C locale: surrounding white
space, an optional sign, digits with an optional fraction, an optional exponent. The
result is `none` when the text is not of that form. (The texts `inf` and `nan` are not
recognised by this model.) -/
def parseDecimal (s : QString) : Option ℚ :=
  let sg := readSign (trimmed s)
  let ip := readDigits sg.2 0 0
  let fp : Nat × Nat × QString :=
    match ip.2.2 with
    | [] => (0, 0, [])
    | c :: cs => if c = '.' then readDigits cs 0 0 else (0, 0, c :: cs)
  if ip.2.1 + fp.2.1 = 0 then none
  else
    let mant : ℚ := (ip.1 : ℚ) + (fp.1 : ℚ) / (10 : ℚ) ^ fp.2.1
    let signed : ℚ := if sg.1 then -mant else mant
    match fp.2.2 with
    | [] => some signed
    | e :: rest =>
      if e = 'e' ∨ e = 'E' then
        match readExponent rest with
        | some k => some (signed * (10 : ℚ) ^ k)
        | none => none
      else none

/-- `QString::toFloat()`: the value of the text, `0.0` if the conversion fails. -/
def toFloat (s : QString) : QFloat :=
  match parseDecimal s with
  | some q => QFloat.fin q
  | none => QFloat.fin 0

end QString

/-! ## Configuration and state -/

/-- What the source file takes from elsewhere: the range constants of `mainwindow.h`, the
range of `verticalSlider` set in `mainwindow.ui`, and the mathematical functions of
`QtMath` applied to render coordinates. -/
structure Config where
  LASER_ACTIVATION_MIN_RANGE : QFloat
  LASER_ACTIVATION_MAX_RANGE : QFloat
  MAX_DETECTION_RANGE : QFloat
  sliderMinimum : Int
  sliderMaximum : Int
  qCos : QFloat → QFloat
  qSin : QFloat → QFloat
  qDegreesToRadians : QFloat → QFloat

/-- Payloads passed to `arduino->write`: `angle a` is the text of the integer `a` followed
by a newline, the others are the literal words `AUTO`, `MANUAL`, `LASER_ON`, `LASER_OFF`
followed by a newline. -/
inductive Command where
  | angle (a : Int)
  | auto
  | manual
  | laserOn
  | laserOff
deriving DecidableEq

/-- A point in render coordinates (`QPointF`). -/
structure QPointF where
  x : QFloat
  y : QFloat
deriving DecidableEq

/-- Kind of a `QMessageBox`. -/
inductive MessageKind where
  | information
  | warning
deriving DecidableEq

/-- State of the main window. `sweepAngle` and `increasing` are the static locals `angle`
and `increasing` of `updateServoAuto`. A timer field is `some interval` while the timer is
active. A label field holds the number last written to the label (`none` before the first
write). `written` is the sequence of payloads passed to `arduino->write`, oldest first.
`detectionPoints` holds the top-left corners of the 3x3 rectangles added to the scene. -/
structure State where
  laserActive : Bool
  autoMode : Bool
  calibrationFactor : QFloat
  calibrationOffset : QFloat
  serialBuffer : QString
  detectionPoints : List QPointF
  needle : List QPointF
  autoTimer : Option Nat
  laserTimer : Option Nat
  resumeTimer : Option Nat
  sweepAngle : Int
  increasing : Bool
  sliderValue : Int
  controlsEnabled : Bool
  buttonAutoText : String
  laserStatusText : Option String
  angleLabel : Option QFloat
  rangeLabel : Option QFloat
  heightLabel : Option QFloat
  detectionStatusText : Option String
  detectionStatusStyle : Option String
  points3D : List (QFloat × QFloat × QFloat)
  heightSeries : List QFloat
  messageBoxes : List (MessageKind × String)
  writable : Bool
  written : List Command
deriving DecidableEq

/-- Member `r`: radius of the radar display. -/
def r : QFloat := QFloat.fin 445

/-- Member `angleOffset`: angular half-width of the needle. -/
def angleOffset : QFloat := QFloat.fin (1 / 20)

/-- The needle triangle around the angle `radAngle` (in radians), apex at the origin
`(505, 495)` of the display. -/
def needleTriangle (cfg : Config) (radAngle : QFloat) : List QPointF :=
  let t_up := QFloat.add radAngle angleOffset
  let t_lo := QFloat.sub radAngle angleOffset
  [ ⟨QFloat.add (QFloat.mul r (cfg.qCos t_up)) (QFloat.fin 505),
     QFloat.add (QFloat.mul (QFloat.neg r) (cfg.qSin t_up)) (QFloat.fin 495)⟩,
    ⟨QFloat.fin 505, QFloat.fin 495⟩,
    ⟨QFloat.add (QFloat.mul r (cfg.qCos t_lo)) (QFloat.fin 505),
     QFloat.add (QFloat.mul (QFloat.neg r) (cfg.qSin t_lo)) (QFloat.fin 495)⟩ ]

/-- State after the constructor `MainWindow::MainWindow`. `portAvailable` tells whether the
device was found and opened; `sliderValue` is the value of the slider in `mainwindow.ui`. -/
def init (cfg : Config) (portAvailable : Bool) (sliderValue : Int) : State :=
  { laserActive := false
    autoMode := false
    calibrationFactor := QFloat.fin 1
    calibrationOffset := QFloat.fin 0
    serialBuffer := []
    detectionPoints := []
    needle := needleTriangle cfg (QFloat.fin 0)
    autoTimer := none
    laserTimer := none
    resumeTimer := none
    sweepAngle := 0
    increasing := true
    sliderValue := sliderValue
    controlsEnabled := true
    buttonAutoText := "Start Auto"
    laserStatusText := none
    angleLabel := none
    rangeLabel := none
    heightLabel := none
    detectionStatusText := none
    detectionStatusStyle := none
    points3D := []
    heightSeries := []
    messageBoxes := if portAvailable then [] else [(MessageKind.warning, "Port error")]
    writable := portAvailable
    written := [] }

/-! ## Slots and helpers, in the order of the source file -/

/-- `MainWindow::setSliderEnabled`: enables or disables the slider and the five preset
buttons together. -/
def setSliderEnabled (enabled : Bool) (s : State) : State :=
  { s with controlsEnabled := enabled }

/-- `MainWindow::updateLaserStatus`. -/
def updateLaserStatus (status : String) (s : State) : State :=
  { s with laserStatusText := some status }

/-- `MainWindow::handleLaserStatus`, for the two texts it is called with. -/
def handleLaserStatus (status : String) (s : State) : State :=
  if status = "LASER_ACTIVATED" then
    let s1 := updateLaserStatus "Laser: On" { s with laserActive := true }
    let s2 := { s1 with laserTimer := some 2000 }
    if s2.autoMode then { s2 with autoTimer := none } else s2
  else if status = "LASER_DEACTIVATED" then
    let s1 := updateLaserStatus "Laser: Off" { s with laserActive := false }
    let s2 := { s1 with laserTimer := none }
    if s2.autoMode then { s2 with autoTimer := some 50 } else s2
  else s

/-- `MainWindow::deactivateLaser`, the slot of the laser hold timer. -/
def deactivateLaser (s : State) : State :=
  let s1 := updateLaserStatus "Laser: Off" { s with laserActive := false }
  let s2 := { s1 with written := s1.written ++ [Command.laserOff] }
  let s3 := { s2 with laserTimer := none }
  { s3 with resumeTimer := some 0 }

/-- `MainWindow::handleLaserActivation`, the local trigger. -/
def handleLaserActivation (s : State) : State :=
  let s1 := updateLaserStatus "Laser: On" { s with laserActive := true }
  let s2 := { s1 with written := s1.written ++ [Command.laserOn] }
  { s2 with laserTimer := some 2000 }

/-- `MainWindow::resumeOperation`, the slot of the resume timer. -/
def resumeOperation (s : State) : State :=
  let s1 := { s with resumeTimer := none }
  if s1.autoMode then { s1 with written := s1.written ++ [Command.auto] }
  else { s1 with written := s1.written ++ [Command.manual] }

/-- `MainWindow::updateServo`: writes the command if the port is writable, drops it
otherwise. -/
def updateServo (command : Command) (s : State) : State :=
  if s.writable then { s with written := s.written ++ [command] } else s

/-- `MainWindow::on_verticalSlider_valueChanged`. -/
def on_verticalSlider_valueChanged (value : Int) (s : State) : State :=
  if !s.autoMode && !s.laserActive then updateServo (Command.angle value) s else s

/-- `ui->verticalSlider->setValue(value)`: the value is bounded to the range of the
slider; if it differs from the current one it is stored and the signal `valueChanged`
runs its slot `on_verticalSlider_valueChanged`. -/
def setValue (cfg : Config) (value : Int) (s : State) : State :=
  let v := max cfg.sliderMinimum (min cfg.sliderMaximum value)
  if v = s.sliderValue then s
  else on_verticalSlider_valueChanged v { s with sliderValue := v }

/-- `MainWindow::updateServoAuto`, the slot of the sweep cadence timer. -/
def updateServoAuto (cfg : Config) (s : State) : State :=
  if !s.laserActive then
    let stepSize : Int := 2
    let s1 :=
      if s.increasing then
        let a := s.sweepAngle + stepSize
        if a ≥ 180 then { s with sweepAngle := 180, increasing := false }
        else { s with sweepAngle := a }
      else
        let a := s.sweepAngle - stepSize
        if a ≤ 0 then { s with sweepAngle := 0, increasing := true }
        else { s with sweepAngle := a }
    setValue cfg s1.sweepAngle (updateServo (Command.angle s1.sweepAngle) s1)
  else s

/-- `MainWindow::clearOldDetectionPoints`: removes the first point while more than 50 are
held. -/
def clearOldDetectionPoints {α : Type} : List α → List α
  | [] => []
  | p :: ps => if (p :: ps).length > 50 then clearOldDetectionPoints ps else p :: ps

/-- Lines 242 to 244: `detectionPoints.append(point); clearOldDetectionPoints();`. -/
def insertDetectionPoint {α : Type} (point : α) (detectionPoints : List α) : List α :=
  clearOldDetectionPoints (detectionPoints ++ [point])

/-- Render position of a detection: `(505 + x, 495 - y)`. -/
def projectPoint (cfg : Config) (angle distance : QFloat) : QPointF :=
  let radAngle := cfg.qDegreesToRadians angle
  let scaledDistance := QFloat.mul (QFloat.div distance cfg.MAX_DETECTION_RANGE) r
  let x := QFloat.mul scaledDistance (cfg.qCos radAngle)
  let y := QFloat.mul scaledDistance (cfg.qSin radAngle)
  ⟨QFloat.add (QFloat.fin 505) x, QFloat.sub (QFloat.fin 495) y⟩

/-- `MainWindow::updateDetectionPoint`. The height is not used by the 2D display. -/
def updateDetectionPoint (cfg : Config) (angle distance _height : QFloat) (s : State) :
    State :=
  let s1 :=
    if QFloat.lt (QFloat.fin 0) distance && QFloat.le distance cfg.MAX_DETECTION_RANGE then
      { s with detectionPoints :=
          insertDetectionPoint (projectPoint cfg angle distance) s.detectionPoints }
    else s
  { s1 with needle := needleTriangle cfg (cfg.qDegreesToRadians angle) }

/-- `MainWindow::getCalibratedHeight`. -/
def getCalibratedHeight (s : State) (rawHeight : QFloat) : QFloat :=
  QFloat.add (QFloat.mul rawHeight s.calibrationFactor) s.calibrationOffset

/-- Body of `MainWindow::processRadarData` for a record of three fields whose values are
`angle`, `distance` and `rawHeight` (lines 120 to 141). -/
def processSample (cfg : Config) (angle distance rawHeight : QFloat) (s : State) : State :=
  let height := getCalibratedHeight s rawHeight
  let s1 := updateDetectionPoint cfg angle distance height s
  let s2 := { s1 with points3D := s1.points3D ++ [(angle, distance, height)] }
  let s3 := { s2 with heightSeries := s2.heightSeries ++ [height] }
  let s4 := { s3 with angleLabel := some angle, rangeLabel := some distance,
                      heightLabel := some height }
  if QFloat.le cfg.LASER_ACTIVATION_MIN_RANGE distance &&
      QFloat.le distance cfg.LASER_ACTIVATION_MAX_RANGE then
    let s5 := { s4 with detectionStatusText := some "Object Detected (Laser Range)",
                        detectionStatusStyle := some "color: red;" }
    if !s5.laserActive then handleLaserActivation s5 else s5
  else
    let far := QFloat.lt cfg.LASER_ACTIVATION_MAX_RANGE distance &&
      QFloat.le distance cfg.MAX_DETECTION_RANGE
    { s4 with detectionStatusText := some (if far then "Object Detected" else "No Object"),
              detectionStatusStyle := some (if far then "color: orange;" else "color: green;") }

/-- `MainWindow::processRadarData`. -/
def processRadarData (cfg : Config) (data : QString) (s : State) : State :=
  match QString.split ',' data with
  | [p0, p1, p2] =>
    processSample cfg (QString.toFloat p0) (QString.toFloat p1) (QString.toFloat p2) s
  | _ => s

/-- The text `LASER_ACTIVATED`. -/
def laserActivatedText : QString := "LASER_ACTIVATED".toList

/-- The text `LASER_DEACTIVATED`. -/
def laserDeactivatedText : QString := "LASER_DEACTIVATED".toList

/-- Lines 104 to 110 of `MainWindow::readSerial`: what is done with one extracted line. -/
def dispatchLine (cfg : Config) (line : QString) (s : State) : State :=
  if QString.contains line ',' then processRadarData cfg line s
  else if line = laserActivatedText then handleLaserStatus "LASER_ACTIVATED" s
  else if line = laserDeactivatedText then handleLaserStatus "LASER_DEACTIVATED" s
  else s

/-- The `while` loop of `MainWindow::readSerial` (lines 99 to 111) on the buffer `buf`,
with `handle` standing for what is done with each extracted line. `fuel` bounds the number
of iterations; every iteration shortens the buffer, so its length is enough. -/
def readLoop {σ : Type} (handle : QString → σ → σ) : Nat → QString → σ → QString × σ
  | 0, buf, st => (buf, st)
  | fuel + 1, buf, st =>
    if QString.contains buf '\n' then
      let lineEnd := QString.indexOf buf '\n'
      let line := QString.trimmed (QString.left buf lineEnd)
      readLoop handle fuel (QString.mid buf (lineEnd + 1)) (handle line st)
    else (buf, st)

/-- `MainWindow::readSerial` on the text `data` that line 97 decodes from the bytes of the
read (`fromUtf8`). The handlers of the lines do not access `serialBuffer`, which is stored
back after the loop. -/
def readSerial (cfg : Config) (data : QString) (s : State) : State :=
  let buf := s.serialBuffer ++ data
  let res := readLoop (dispatchLine cfg) buf.length buf s
  { res.2 with serialBuffer := res.1 }

/-- The framing of `readSerial` after the decoding of line 97: appends the decoded text
`data` to the buffer `buf` and runs the loop with a handler that records each extracted
line. Returns the lines in the order of extraction and the buffer left. The decoding of
the bytes of a read is `fromUtf8`, and `feedBytes` puts the two together. -/
def frameLines (buf data : QString) : List QString × QString :=
  let b := buf ++ data
  let res := readLoop (fun line acc => acc ++ [line]) b.length b []
  (res.2, res.1)

/-- The loop `for (int i = 0; i < measurementCount; ++i) measuredSum += reading` of
`performCalibration` with `remaining` iterations left; `reading i` is the value of
`ui->heightLabel->text().toFloat()` in iteration `i`. -/
def measureLoop (reading : Nat → QFloat) : Nat → Nat → QFloat → QFloat
  | 0, _, measuredSum => measuredSum
  | remaining + 1, i, measuredSum =>
    measureLoop reading remaining (i + 1) (QFloat.add measuredSum (reading i))

/-- `MainWindow::performCalibration`. `knownHeight` is the value returned by the input
dialog, `reading i` the height read from the label in iteration `i`. The two message boxes
shown are appended to `messageBoxes`. -/
def performCalibration (knownHeight : QFloat) (reading : Nat → QFloat) (s : State) : State :=
  let s1 := { s with messageBoxes := s.messageBoxes ++ [(MessageKind.information, "Calibration")] }
  let measurementCount : Nat := 10
  let measuredSum := measureLoop reading measurementCount 0 (QFloat.fin 0)
  let averageMeasuredHeight := QFloat.div measuredSum (QFloat.fin measurementCount)
  let s2 := { s1 with calibrationFactor := QFloat.div knownHeight averageMeasuredHeight }
  let s3 := { s2 with calibrationOffset := QFloat.fin 0 }
  { s3 with messageBoxes :=
      s3.messageBoxes ++ [(MessageKind.information, "Calibration Complete")] }

/-- Common body of the five preset slots: `if (!autoMode) { updateServo("<a>\n");
ui->verticalSlider->setValue(<a>); }`. -/
def presetClicked (cfg : Config) (a : Int) (s : State) : State :=
  if !s.autoMode then setValue cfg a (updateServo (Command.angle a) s) else s

/-- `MainWindow::on_button0_clicked`. -/
def on_button0_clicked (cfg : Config) (s : State) : State := presetClicked cfg 0 s

/-- `MainWindow::on_button45_clicked`. -/
def on_button45_clicked (cfg : Config) (s : State) : State := presetClicked cfg 45 s

/-- `MainWindow::on_button90_clicked`. -/
def on_button90_clicked (cfg : Config) (s : State) : State := presetClicked cfg 90 s

/-- `MainWindow::on_button135_clicked`. -/
def on_button135_clicked (cfg : Config) (s : State) : State := presetClicked cfg 135 s

/-- `MainWindow::on_button180_clicked`. -/
def on_button180_clicked (cfg : Config) (s : State) : State := presetClicked cfg 180 s

/-- `MainWindow::on_button_auto_clicked`. -/
def on_button_auto_clicked (s : State) : State :=
  let s1 := { s with autoMode := !s.autoMode }
  if s1.autoMode then
    let s2 := { s1 with autoTimer := some 50, buttonAutoText := "Stop Auto" }
    let s3 := setSliderEnabled false s2
    { s3 with written := s3.written ++ [Command.auto] }
  else
    let s2 := { s1 with autoTimer := none, buttonAutoText := "Start Auto" }
    let s3 := setSliderEnabled true s2
    { s3 with written := s3.written ++ [Command.manual] }

/-! ## Events -/

/-- The five preset buttons. -/
inductive Preset where
  | p0
  | p45
  | p90
  | p135
  | p180
deriving DecidableEq

/-- What the event loop delivers to the window: operator input, text from the serial port,
and the expiry of one of the three timers. -/
inductive Event where
  | userToggleAuto
  | userPreset (button : Preset)
  | userMoveSlider (value : Int)
  | serialData (data : QString)
  | sweepTick
  | laserHoldExpired
  | resumeTick
  | userCalibrate (knownHeight : QFloat) (reading : Nat → QFloat)

/-- The slot of a preset button. -/
def presetSlot (cfg : Config) : Preset → State → State
  | Preset.p0 => on_button0_clicked cfg
  | Preset.p45 => on_button45_clicked cfg
  | Preset.p90 => on_button90_clicked cfg
  | Preset.p135 => on_button135_clicked cfg
  | Preset.p180 => on_button180_clicked cfg

/-- One event handled by the window. A disabled control takes no input, a timer that is
not active does not expire, text arrives only from an open port, and the input dialog of
the calibration returns a height between 0 and 1000. -/
def step (cfg : Config) (e : Event) (s : State) : State :=
  match e with
  | Event.userToggleAuto => on_button_auto_clicked s
  | Event.userPreset b => if s.controlsEnabled then presetSlot cfg b s else s
  | Event.userMoveSlider v => if s.controlsEnabled then setValue cfg v s else s
  | Event.serialData data => if s.writable then readSerial cfg data s else s
  | Event.sweepTick => if s.autoTimer.isSome then updateServoAuto cfg s else s
  | Event.laserHoldExpired => if s.laserTimer.isSome then deactivateLaser s else s
  | Event.resumeTick => if s.resumeTimer.isSome then resumeOperation s else s
  | Event.userCalibrate knownHeight reading =>
    if QFloat.le (QFloat.fin 0) knownHeight && QFloat.le knownHeight (QFloat.fin 1000) then
      performCalibration knownHeight reading s
    else s

/-- The events of a list handled one after another. -/
def run (cfg : Config) (events : List Event) (s : State) : State :=
  events.foldl (fun st e => step cfg e st) s

/-- A state the window can be in: reached from a state after the constructor by a sequence
of events. -/
def Reachable (cfg : Config) (s : State) : Prop :=
  ∃ (portAvailable : Bool) (sliderValue : Int) (events : List Event),
    s = run cfg events (init cfg portAvailable sliderValue)

/-- One piece of decoded text appended and framed: `state` is the pair of the lines
produced so far and the buffer; the lines extracted by `frameLines` are added and the
buffer replaced. -/
def feedChunk (state : List QString × QString) (chunk : QString) : List QString × QString :=
  (state.1 ++ (frameLines state.2 chunk).1, (frameLines state.2 chunk).2)

/-- Pieces of decoded text appended and framed one after another, starting with no line
and an empty buffer. -/
def feedChunks (chunks : List QString) : List QString × QString :=
  chunks.foldl feedChunk ([], [])

/-- What every state of the window satisfies (see `reachable_controlInvariant`): the sweep
cadence timer is active only in Auto mode, the laser is active exactly when the hold timer
is armed, the hold timer is armed with 2000 ms only, and the calibration offset is 0. -/
def ControlInvariant (s : State) : Prop :=
  (s.autoTimer.isSome = true → s.autoMode = true)
    ∧ (s.laserActive = true ↔ s.laserTimer = some 2000)
    ∧ (s.laserActive = false ↔ s.laserTimer = none)
    ∧ s.calibrationOffset = QFloat.fin 0

/-- The scaled distance of `updateDetectionPoint` (line 236) with the arithmetic of an
arbitrary field: `(distance / MAX_DETECTION_RANGE) * r` with `r = 445`. -/
def scaledDistanceOver {F : Type} [Field F] (maxRange distance : F) : F :=
  distance / maxRange * 445

/-- Lines 233 to 241 of `updateDetectionPoint` with the arithmetic of an arbitrary field:
`toRadians`, `cos` and `sin` stand for `qDegreesToRadians`, `qCos` and `qSin`, and the
result is the corner `(505 + x, 495 - y)` of the rectangle added to the scene. -/
def projectOver {F : Type} [Field F] (toRadians cos sin : F → F)
    (maxRange angle distance : F) : F × F :=
  let radAngle := toRadians angle
  let scaledDistance := scaledDistanceOver maxRange distance
  let x := scaledDistance * cos radAngle
  let y := scaledDistance * sin radAngle
  (505 + x, 495 - y)

/-- A `QByteArray`, as its sequence of bytes (numbers below 256). -/
abbrev QByteArray := List Nat

/-- `QChar::ReplacementCharacter`, U+FFFD. -/
def replacementCharacter : Char := Char.ofNat 0xFFFD

/-- A continuation byte of UTF-8: `(b & 0xc0) == 0x80`. -/
def isContinuationByte (b : Nat) : Bool := b / 64 = 2

/-- The safety check of a decoded code point `uc` of a sequence with `n` continuation
bytes: overlong forms (`uc` below `minUc`), surrogates and values above U+10FFFF are
errors. -/
def checkedCodePoint (minUc uc n : Nat) : Option (Char × Nat) :=
  if uc < minUc ∨ (0xD800 ≤ uc ∧ uc ≤ 0xDFFF) ∨ 0x10FFFF < uc then none
  else some (Char.ofNat uc, n)

/-- Decoding of one multi-byte sequence of UTF-8 whose first byte is `b` (not ASCII) and
which continues in `rest`: the character and the number of continuation bytes consumed, or
`none` when the sequence is malformed or not terminated within `rest`. -/
def decodeSequence (b : Nat) (rest : QByteArray) : Option (Char × Nat) :=
  if b ≤ 0xC1 then none
  else if b < 0xE0 then
    match rest with
    | b1 :: _ =>
      if isContinuationByte b1 then checkedCodePoint 0x80 (b % 32 * 64 + b1 % 64) 1
      else none
    | _ => none
  else if b < 0xF0 then
    match rest with
    | b1 :: b2 :: _ =>
      if isContinuationByte b1 && isContinuationByte b2 then
        checkedCodePoint 0x800 ((b % 16 * 64 + b1 % 64) * 64 + b2 % 64) 2
      else none
    | _ => none
  else if b < 0xF5 then
    match rest with
    | b1 :: b2 :: b3 :: _ =>
      if isContinuationByte b1 && isContinuationByte b2 && isContinuationByte b3 then
        checkedCodePoint 0x10000 (((b % 8 * 64 + b1 % 64) * 64 + b2 % 64) * 64 + b3 % 64) 3
      else none
    | _ => none
  else none

/-- The decoding loop of the stateless UTF-8 codec: an ASCII byte is its character, a
well-formed sequence is its character, and a byte that does not start a well-formed
sequence terminated within the data is replaced by U+FFFD, decoding resuming at the next
byte. `fuel` bounds the iterations; every iteration consumes a byte, so the length of the
data is enough. -/
def decodeLoop : Nat → QByteArray → QString
  | 0, _ => []
  | _ + 1, [] => []
  | fuel + 1, b :: rest =>
    if b < 0x80 then Char.ofNat b :: decodeLoop fuel rest
    else
      match decodeSequence b rest with
      | some (c, n) => c :: decodeLoop fuel (rest.drop n)
      | none => replacementCharacter :: decodeLoop fuel rest

/-- `QString::fromUtf8(data)`, the stateless decoding done by line 97 of `readSerial` on
the bytes of one read: a byte order mark at the start is skipped, then the bytes are
decoded; an unterminated sequence at the end of the data is replaced, the next call does
not see it. A character outside the basic plane is one `Char` here (two `QChar`s in Qt). -/
def fromUtf8 (data : QByteArray) : QString :=
  let src := if data.take 3 = [0xEF, 0xBB, 0xBF] then data.drop 3 else data
  decodeLoop src.length src

/-- Lines 96 to 111 of `readSerial` on the bytes of one read, as far as the framing goes:
the bytes are decoded on their own, the text is appended to the buffer and the lines are
extracted. `state` is the pair of the lines produced so far and the buffer. -/
def feedBytes (state : List QString × QString) (data : QByteArray) :
    List QString × QString :=
  feedChunk state (fromUtf8 data)

/-- The byte chunks of a list read one after another, starting with no line and an empty
buffer. -/
def feedByteChunks (chunks : List QByteArray) : List QString × QString :=
  chunks.foldl feedBytes ([], [])

/-- A configuration on which the definitions are evaluated in examples: a laser band of
10 to 50 cm inside a detection range of 200 cm and a slider range of 0 to 180. The render
coordinates play no role in these examples, and the three mathematical functions are
replaced by the identity. -/
def sampleConfig : Config :=
  { LASER_ACTIVATION_MIN_RANGE := QFloat.fin 10
    LASER_ACTIVATION_MAX_RANGE := QFloat.fin 50
    MAX_DETECTION_RANGE := QFloat.fin 200
    sliderMinimum := 0
    sliderMaximum := 180
    qCos := fun a => a
    qSin := fun a => a
    qDegreesToRadians := fun a => a }

end Radar

/-! ## Theorems -/

namespace Radar

/-! ### Detection history -/

theorem clearOldDetectionPoints_eq_drop {α : Type} (l : List α) :
    clearOldDetectionPoints l = l.drop (l.length - 50) := by
  induction l with
  | nil => rfl
  | cons p ps ih =>
    unfold clearOldDetectionPoints
    split
    · rename_i h
      simp only [List.length_cons] at h
      have e : (p :: ps).length - 50 = (ps.length - 50) + 1 := by
        simp only [List.length_cons]; omega
      rw [ih, e, List.drop_succ_cons]
    · rename_i h
      simp only [List.length_cons] at h
      have e : (p :: ps).length - 50 = 0 := by
        simp only [List.length_cons]; omega
      rw [e, List.drop_zero]

theorem insertDetectionPoint_eq_drop {α : Type} (p : α) (h : List α) :
    insertDetectionPoint p h = (h ++ [p]).drop ((h ++ [p]).length - 50) := by
  unfold insertDetectionPoint
  exact clearOldDetectionPoints_eq_drop _

theorem insertDetectionPoint_length_le {α : Type} (p : α) (h : List α) :
    (insertDetectionPoint p h).length ≤ 50 := by
  rw [insertDetectionPoint_eq_drop, List.length_drop]
  omega

theorem foldl_insert_eq_drop {α : Type} (ps h : List α) (hh : h.length ≤ 50) :
    ps.foldl (fun h p => insertDetectionPoint p h) h
      = (h ++ ps).drop ((h ++ ps).length - 50) := by
  induction ps generalizing h with
  | nil =>
    have e : (h ++ []).length - 50 = 0 := by simp; omega
    rw [e]; simp
  | cons p ps ih =>
    rw [List.foldl_cons, ih _ (insertDetectionPoint_length_le p h),
      insertDetectionPoint_eq_drop]
    have hk : (h ++ [p]).length - 50 ≤ (h ++ [p]).length := Nat.sub_le _ _
    rw [← List.drop_append_of_le_length hk, List.drop_drop]
    have e1 : h ++ [p] ++ ps = h ++ p :: ps := by simp
    rw [e1]
    congr 1
    simp only [List.length_drop, List.length_append, List.length_cons, List.length_nil]
    omega

theorem foldl_insert_length_le {α : Type} (ps : List α) :
    (ps.foldl (fun h p => insertDetectionPoint p h) []).length ≤ 50 := by
  rw [foldl_insert_eq_drop ps [] (by simp), List.length_drop]
  omega

/-- C1: inserting a point into a detection history of at most 50 points (append, then
`clearOldDetectionPoints`) leaves exactly the last `min (size + 1) 50` elements of the
history followed by the point, in their order; after inserting any 60 points in order into
the empty history it holds exactly the last 50 of them (the first 10 are gone), and after
every insertion along the way the size is at most 50. -/
theorem detection_history_keeps_last_50 {α : Type} (h : List α) (p : α) (ps : List α)
    (hh : h.length ≤ 50) (hps : ps.length = 60) :
    insertDetectionPoint p h
        = (h ++ [p]).drop ((h ++ [p]).length - min (h.length + 1) 50)
      ∧ (insertDetectionPoint p h).length = min (h.length + 1) 50
      ∧ ps.foldl (fun h p => insertDetectionPoint p h) [] = ps.drop 10
      ∧ (ps.foldl (fun h p => insertDetectionPoint p h) []).length = 50
      ∧ ∀ k : Nat,
          ((ps.take k).foldl (fun h p => insertDetectionPoint p h) []).length ≤ 50 := by
  have e : (h ++ [p]).length - min (h.length + 1) 50 = (h ++ [p]).length - 50 := by
    simp only [List.length_append, List.length_cons, List.length_nil]; omega
  have f : ps.foldl (fun h p => insertDetectionPoint p h) [] = ps.drop 10 := by
    rw [foldl_insert_eq_drop ps [] (by simp)]
    simp [hps]
  refine ⟨?_, ?_, f, ?_, fun k => foldl_insert_length_le _⟩
  · rw [e]; exact insertDetectionPoint_eq_drop p h
  · rw [insertDetectionPoint_eq_drop, List.length_drop]
    simp only [List.length_append, List.length_cons, List.length_nil]; omega
  · rw [f, List.length_drop, hps]

theorem detection_history_keeps_last_50_witness :
    [1, 2, 3].length ≤ 50 ∧ (List.range 60).length = 60
      ∧ insertDetectionPoint 4 [1, 2, 3] = [1, 2, 3, 4]
      ∧ (List.range 60).foldl (fun h p => insertDetectionPoint p h) []
          = (List.range 60).drop 10 :=
  ⟨by decide, by decide,
    (detection_history_keeps_last_50 [1, 2, 3] 4 (List.range 60) (by decide) (by decide)).1,
    (detection_history_keeps_last_50 [1, 2, 3] 4 (List.range 60) (by decide)
      (by decide)).2.2.1⟩

/-! ### Servo commands and the sweep -/

theorem updateServo_eq (c : Command) (s : State) :
    updateServo c s
      = { s with written := if s.writable then s.written ++ [c] else s.written } := by
  unfold updateServo
  by_cases h : s.writable = true
  · rw [if_pos h, if_pos h]
  · rw [if_neg h, if_neg h]

theorem on_verticalSlider_valueChanged_eq (v : Int) (s : State) :
    on_verticalSlider_valueChanged v s
      = { s with written :=
            if s.autoMode = false ∧ s.laserActive = false ∧ s.writable = true
            then s.written ++ [Command.angle v] else s.written } := by
  unfold on_verticalSlider_valueChanged
  rw [updateServo_eq]
  obtain ⟨⟩ := s
  rename_i la am _ _ _ _ _ _ _ _ _ _ _ _ _ _ _ _ _ _ _ _ _ _ wr _
  cases la <;> cases am <;> cases wr <;> simp

theorem setValue_eq (cfg : Config) (value : Int) (s : State) :
    setValue cfg value s
      = { s with
          sliderValue := max cfg.sliderMinimum (min cfg.sliderMaximum value)
          written :=
            if max cfg.sliderMinimum (min cfg.sliderMaximum value) ≠ s.sliderValue
                ∧ s.autoMode = false ∧ s.laserActive = false ∧ s.writable = true
            then s.written ++ [Command.angle (max cfg.sliderMinimum (min cfg.sliderMaximum value))]
            else s.written } := by
  unfold setValue
  simp only [on_verticalSlider_valueChanged_eq]
  by_cases h : max cfg.sliderMinimum (min cfg.sliderMaximum value) = s.sliderValue
  · simp only [h, if_true, ne_eq, not_true_eq_false, false_and, if_false]
  · simp only [h, if_false, ne_eq, not_false_eq_true, true_and]

theorem updateServoAuto_sweep (cfg : Config) (s : State) (hl : s.laserActive = false) :
    ((updateServoAuto cfg s).sweepAngle, (updateServoAuto cfg s).increasing)
      = if s.increasing then
          (if s.sweepAngle + 2 ≥ 180 then (180, false) else (s.sweepAngle + 2, true))
        else (if s.sweepAngle - 2 ≤ 0 then (0, true) else (s.sweepAngle - 2, false)) := by
  unfold updateServoAuto
  simp only [hl, Bool.not_false, if_true, setValue_eq, updateServo_eq]
  cases hi : s.increasing
  · by_cases h : s.sweepAngle - 2 ≤ 0 <;> simp [h, hi]
  · by_cases h : s.sweepAngle + 2 ≥ 180 <;> simp [h, hi]

theorem updateServoAuto_of_active (cfg : Config) (s : State) (hl : s.laserActive = true) :
    updateServoAuto cfg s = s := by
  unfold updateServoAuto
  rw [if_neg (by simp [hl])]

theorem updateServoAuto_laserActive (cfg : Config) (s : State) :
    (updateServoAuto cfg s).laserActive = s.laserActive := by
  by_cases hl : s.laserActive = true
  · rw [updateServoAuto_of_active cfg s hl]
  · unfold updateServoAuto
    simp only [setValue_eq, updateServo_eq, hl, Bool.not_eq_true, Bool.not_false, if_true]
    cases hi : s.increasing
    · by_cases h : s.sweepAngle - 2 ≤ 0 <;> simp [h, hl]
    · by_cases h : s.sweepAngle + 2 ≥ 180 <;> simp [h, hl]


theorem updateServoAuto_sweepAngle (cfg : Config) (s : State) (hl : s.laserActive = false) :
    (updateServoAuto cfg s).sweepAngle
      = if s.increasing then (if s.sweepAngle + 2 ≥ 180 then 180 else s.sweepAngle + 2)
        else (if s.sweepAngle - 2 ≤ 0 then 0 else s.sweepAngle - 2) := by
  have h := congrArg Prod.fst (updateServoAuto_sweep cfg s hl)
  simp only at h
  rw [h]
  repeat' split
  all_goals rfl

theorem updateServoAuto_increasing (cfg : Config) (s : State) (hl : s.laserActive = false) :
    (updateServoAuto cfg s).increasing
      = if s.increasing then (if s.sweepAngle + 2 ≥ 180 then false else true)
        else (if s.sweepAngle - 2 ≤ 0 then true else false) := by
  have h := congrArg Prod.snd (updateServoAuto_sweep cfg s hl)
  simp only at h
  rw [h]
  repeat' split
  all_goals rfl

/-- C2: with the laser inactive and the sweep angle within 0 and 180, one sweep tick
(`updateServoAuto`) leaves the angle within 0 and 180, moves it by 2 in the current
direction and clamps it at the bound, and flips the direction exactly when the new angle
is 0 or 180; from 178 increasing, two ticks give 180 and then 178. -/
theorem sweep_tick_bounces (cfg : Config) (s : State)
    (h0 : 0 ≤ s.sweepAngle) (h1 : s.sweepAngle ≤ 180) (hl : s.laserActive = false) :
    0 ≤ (updateServoAuto cfg s).sweepAngle ∧ (updateServoAuto cfg s).sweepAngle ≤ 180
      ∧ (s.increasing = true →
          (updateServoAuto cfg s).sweepAngle = min (s.sweepAngle + 2) 180)
      ∧ (s.increasing = false →
          (updateServoAuto cfg s).sweepAngle = max (s.sweepAngle - 2) 0)
      ∧ ((updateServoAuto cfg s).increasing ≠ s.increasing ↔
          ((updateServoAuto cfg s).sweepAngle = 0 ∨ (updateServoAuto cfg s).sweepAngle = 180))
      ∧ (s.sweepAngle = 178 → s.increasing = true →
          (updateServoAuto cfg s).sweepAngle = 180
            ∧ (updateServoAuto cfg (updateServoAuto cfg s)).sweepAngle = 178) := by
  have ha := updateServoAuto_sweepAngle cfg s hl
  have hi := updateServoAuto_increasing cfg s hl
  have hl2 : (updateServoAuto cfg s).laserActive = false := by
    rw [updateServoAuto_laserActive, hl]
  have ha2 := updateServoAuto_sweepAngle cfg _ hl2
  refine ⟨?_, ?_, ?_, ?_, ?_, ?_⟩
  · rw [ha]; repeat' split
    all_goals omega
  · rw [ha]; repeat' split
    all_goals omega
  · intro hinc
    rw [ha, if_pos hinc]
    split <;> omega
  · intro hinc
    rw [ha, if_neg (by simp [hinc])]
    split <;> omega
  · rw [ha, hi]
    cases hinc : s.increasing
    · by_cases h : s.sweepAngle - 2 ≤ 0
      · simp [h]
      · simp [h]; omega
    · by_cases h : s.sweepAngle + 2 ≥ 180
      · simp [h]
      · simp [h]; omega
  · intro h178 hinc
    have e1 : (updateServoAuto cfg s).sweepAngle = 180 := by
      rw [ha, if_pos hinc, h178]; rfl
    have e2 : (updateServoAuto cfg s).increasing = false := by
      rw [hi, if_pos hinc, h178]; rfl
    refine ⟨e1, ?_⟩
    rw [ha2, e1, e2]; rfl

theorem sweep_tick_bounces_witness :
    (updateServoAuto sampleConfig
        { init sampleConfig true 0 with sweepAngle := 178 }).sweepAngle = 180
      ∧ (updateServoAuto sampleConfig (updateServoAuto sampleConfig
        { init sampleConfig true 0 with sweepAngle := 178 })).sweepAngle = 178 :=
  (sweep_tick_bounces sampleConfig { init sampleConfig true 0 with sweepAngle := 178 }
    (by decide) (by decide) rfl).2.2.2.2.2 rfl rfl

/-! ### The line framer -/

theorem indexOfFrom_append (c : Char) (l r : QString) (i : Nat) (hl : c ∉ l) :
    QString.indexOfFrom c (l ++ c :: r) i = ((i + l.length : Nat) : Int) := by
  induction l generalizing i with
  | nil => simp [QString.indexOfFrom]
  | cons x xs ih =>
    have hx : x ≠ c := fun e => hl (by simp [e])
    have hxs : c ∉ xs := fun e => hl (by simp [e])
    rw [List.cons_append, QString.indexOfFrom, if_neg hx, ih (i + 1) hxs, List.length_cons]
    congr 1
    omega

theorem indexOf_append (c : Char) (l r : QString) (hl : c ∉ l) :
    QString.indexOf (l ++ c :: r) c = (l.length : Int) := by
  unfold QString.indexOf
  rw [indexOfFrom_append c l r 0 hl]
  simp

theorem left_append (c : Char) (l r : QString) :
    QString.left (l ++ c :: r) (l.length : Int) = l := by
  unfold QString.left
  have h : ¬ ((l.length : Int) < 0 ∨ ((l ++ c :: r).length : Int) ≤ (l.length : Int)) := by
    simp only [List.length_append, List.length_cons]
    omega
  rw [if_neg h]
  simp

theorem mid_append (c : Char) (l r : QString) :
    QString.mid (l ++ c :: r) ((l.length : Int) + 1) = r := by
  unfold QString.mid
  have h : ¬ (((l ++ c :: r).length : Int) < (l.length : Int) + 1) := by
    simp only [List.length_append, List.length_cons]
    omega
  rw [if_neg h]
  have e : ((l.length : Int) + 1).toNat = l.length + 1 := by omega
  rw [e]
  simp

theorem contains_iff (s : QString) (c : Char) : QString.contains s c = true ↔ c ∈ s := by
  unfold QString.contains
  simp

/-- One iteration of the loop on a buffer whose first newline follows `l`. -/
theorem readLoop_step {σ : Type} (handle : QString → σ → σ) (fuel : Nat) (l r : QString)
    (st : σ) (hl : '\n' ∉ l) :
    readLoop handle (fuel + 1) (l ++ '\n' :: r) st
      = readLoop handle fuel r (handle (QString.trimmed l) st) := by
  have hc : QString.contains (l ++ '\n' :: r) '\n' = true := by
    rw [contains_iff]; simp
  rw [readLoop, if_pos hc]
  simp only [indexOf_append '\n' l r hl, left_append, mid_append]

/-- The loop stops at once on a buffer without newline. -/
theorem readLoop_done {σ : Type} (handle : QString → σ → σ) (fuel : Nat) (b : QString)
    (st : σ) (hb : '\n' ∉ b) : readLoop handle fuel b st = (b, st) := by
  cases fuel with
  | zero => rfl
  | succ n =>
    have hc : ¬ (QString.contains b '\n' = true) := by rw [contains_iff]; exact hb
    rw [readLoop, if_neg hc]

/-- Any fuel not below the length of the buffer gives the same result. -/
theorem readLoop_fuel {σ : Type} (handle : QString → σ → σ) (n : Nat) :
    ∀ (b : QString) (st : σ) (f1 f2 : Nat), b.length ≤ n → b.length ≤ f1 → b.length ≤ f2 →
      readLoop handle f1 b st = readLoop handle f2 b st := by
  induction n with
  | zero =>
    intro b st f1 f2 hn _ _
    have hb : b = [] := List.length_eq_zero.mp (Nat.le_zero.mp hn)
    subst hb
    rw [readLoop_done handle f1 [] st (by simp), readLoop_done handle f2 [] st (by simp)]
  | succ n ih =>
    intro b st f1 f2 hn h1 h2
    by_cases hb : '\n' ∈ b
    · obtain ⟨l, r, rfl, hl⟩ := List.eq_append_cons_of_mem hb
      simp only [List.length_append, List.length_cons] at hn h1 h2
      obtain ⟨g1, rfl⟩ : ∃ g, f1 = g + 1 := ⟨f1 - 1, by omega⟩
      obtain ⟨g2, rfl⟩ : ∃ g, f2 = g + 1 := ⟨f2 - 1, by omega⟩
      rw [readLoop_step handle g1 l r st hl, readLoop_step handle g2 l r st hl]
      exact ih r _ g1 g2 (by omega) (by omega) (by omega)
    · rw [readLoop_done handle f1 b st hb, readLoop_done handle f2 b st hb]

/-- Running the loop on `b ++ data` is running it on `b` and then on what it left
followed by `data`. -/
theorem readLoop_append {σ : Type} (handle : QString → σ → σ) (n : Nat) :
    ∀ (b data : QString) (st : σ) (f f1 f2 : Nat), b.length ≤ n →
      (b ++ data).length ≤ f → b.length ≤ f1 →
      ((readLoop handle f1 b st).1 ++ data).length ≤ f2 →
      readLoop handle f (b ++ data) st
        = readLoop handle f2 ((readLoop handle f1 b st).1 ++ data) (readLoop handle f1 b st).2 := by
  induction n with
  | zero =>
    intro b data st f f1 f2 hn hf _ hf2
    have hb : b = [] := List.length_eq_zero.mp (Nat.le_zero.mp hn)
    subst hb
    rw [readLoop_done handle f1 [] st (by simp)] at hf2 ⊢
    exact readLoop_fuel handle _ _ st f f2 (le_refl _) hf hf2
  | succ n ih =>
    intro b data st f f1 f2 hn hf h1 hf2
    by_cases hb : '\n' ∈ b
    · obtain ⟨l, r, rfl, hl⟩ := List.eq_append_cons_of_mem hb
      simp only [List.length_append, List.length_cons] at hn hf h1
      obtain ⟨g, rfl⟩ : ∃ g, f = g + 1 := ⟨f - 1, by omega⟩
      obtain ⟨g1, rfl⟩ : ∃ g, f1 = g + 1 := ⟨f1 - 1, by omega⟩
      rw [readLoop_step handle g1 l r st hl] at hf2 ⊢
      have e : l ++ '\n' :: r ++ data = l ++ '\n' :: (r ++ data) := by simp
      rw [e, readLoop_step handle g l (r ++ data) st hl]
      exact ih r data _ g g1 f2 (by omega) (by simp only [List.length_append]; omega)
        (by omega) hf2
    · rw [readLoop_done handle f1 b st hb] at hf2 ⊢
      exact readLoop_fuel handle _ _ st f f2 (le_refl _) hf hf2

theorem readLoop_record (f : Nat) :
    ∀ (b : QString) (acc : List QString),
      readLoop (fun line acc => acc ++ [line]) f b acc
        = ((readLoop (fun line acc => acc ++ [line]) f b []).1,
            acc ++ (readLoop (fun line acc => acc ++ [line]) f b []).2) := by
  induction f with
  | zero => intro b acc; simp [readLoop]
  | succ f ih =>
    intro b acc
    by_cases hc : QString.contains b '\n' = true
    · rw [readLoop, if_pos hc, readLoop, if_pos hc]
      simp only
      rw [ih _ (acc ++ _), ih _ ([] ++ _)]
      simp
    · have e : ∀ a : List QString,
          readLoop (fun line acc => acc ++ [line]) (f + 1) b a = (b, a) := by
        intro a
        rw [readLoop, if_neg hc]
      rw [e acc, e []]
      simp

/-- Framing `buf ++ (c ++ data)` gives the lines of framing `buf ++ c` followed by those
of framing its residue with `data`. -/
theorem frameLines_append (buf c data : QString) :
    frameLines buf (c ++ data)
      = ((frameLines buf c).1 ++ (frameLines (frameLines buf c).2 data).1,
          (frameLines (frameLines buf c).2 data).2) := by
  unfold frameLines
  simp only
  have e : buf ++ (c ++ data) = (buf ++ c) ++ data := by simp
  rw [e, readLoop_append (fun line acc => acc ++ [line]) (buf ++ c).length (buf ++ c) data []
    ((buf ++ c) ++ data).length (buf ++ c).length _ (le_refl _) (le_refl _) (le_refl _)
    (le_refl _)]
  rw [readLoop_record _ _ (readLoop _ _ _ _).2]

theorem foldl_feedChunk (cs : List QString) :
    ∀ (c : QString) (st : List QString × QString),
      cs.foldl feedChunk (feedChunk st c)
        = (st.1 ++ (frameLines st.2 (c ++ cs.flatten)).1,
            (frameLines st.2 (c ++ cs.flatten)).2) := by
  induction cs with
  | nil => intro c st; simp [feedChunk]
  | cons d ds ih =>
    intro c st
    rw [List.foldl_cons, ih d (feedChunk st c), List.flatten_cons,
      frameLines_append st.2 c (d ++ ds.flatten)]
    simp [feedChunk]

/-- With fuel not below the length of the buffer the loop ends by its own condition: no
newline is left in the buffer. -/
theorem readLoop_complete {σ : Type} (handle : QString → σ → σ) (n : Nat) :
    ∀ (b : QString) (st : σ) (f : Nat), b.length ≤ n → b.length ≤ f →
      '\n' ∉ (readLoop handle f b st).1 := by
  induction n with
  | zero =>
    intro b st f hn _
    have hb : b = [] := List.length_eq_zero.mp (Nat.le_zero.mp hn)
    subst hb
    rw [readLoop_done handle f [] st (by simp)]
    simp
  | succ n ih =>
    intro b st f hn hf
    by_cases hb : '\n' ∈ b
    · obtain ⟨l, r, rfl, hl⟩ := List.eq_append_cons_of_mem hb
      simp only [List.length_append, List.length_cons] at hn hf
      obtain ⟨g, rfl⟩ : ∃ g, f = g + 1 := ⟨f - 1, by omega⟩
      rw [readLoop_step handle g l r st hl]
      exact ih r _ g (by omega) (by omega)
    · rw [readLoop_done handle f b st hb]
      exact hb

/-- On text that is already decoded, the framing depends only on the concatenation of the
pieces appended: appending them one after another gives the same lines and the same
residual buffer as appending their concatenation at once. -/
theorem feedChunks_eq_frameLines (texts : List QString) :
    feedChunks texts = frameLines [] texts.flatten := by
  unfold feedChunks
  cases texts with
  | nil => rfl
  | cons c cs =>
    rw [List.foldl_cons, foldl_feedChunk cs c ([], [])]
    simp

/-- The buffer left by the framer holds no newline: the extraction loop has run until its
own condition ended it. -/
theorem frameLines_complete (buf data : QString) : '\n' ∉ (frameLines buf data).2 := by
  unfold frameLines
  exact readLoop_complete _ _ _ _ _ (le_refl _) (le_refl _)

/-! ### Dispatch of a line -/

theorem split_of_not_mem (sep : Char) (s : QString) (h : sep ∉ s) :
    QString.split sep s = [s] := by
  induction s with
  | nil => rfl
  | cons c cs ih =>
    have hc : c ≠ sep := fun e => h (by simp [e])
    have hcs : sep ∉ cs := fun e => h (by simp [e])
    rw [QString.split, if_neg hc, ih hcs]

theorem contains_of_split_three (line a b c : QString)
    (h : QString.split ',' line = [a, b, c]) : QString.contains line ',' = true := by
  by_contra hc
  rw [contains_iff] at hc
  rw [split_of_not_mem ',' line hc] at h
  simp at h

theorem processRadarData_of_three (cfg : Config) (line a b c : QString) (s : State)
    (h : QString.split ',' line = [a, b, c]) :
    processRadarData cfg line s
      = processSample cfg (QString.toFloat a) (QString.toFloat b) (QString.toFloat c) s := by
  unfold processRadarData
  rw [h]

theorem processRadarData_of_not_three (cfg : Config) (line : QString) (s : State)
    (h : (QString.split ',' line).length ≠ 3) : processRadarData cfg line s = s := by
  unfold processRadarData
  split
  · rename_i e
    rw [e] at h
    simp at h
  · rfl

theorem toFloat_30 : QString.toFloat "30".toList = QFloat.fin 30 := by
  simp [QString.toFloat, QString.parseDecimal, QString.trimmed, QString.isSpace,
    QString.readSign, QString.readDigits, QString.digitVal]

theorem toFloat_120_5 : QString.toFloat "120.5".toList = QFloat.fin (241 / 2) := by
  simp [QString.toFloat, QString.parseDecimal, QString.trimmed, QString.isSpace,
    QString.readSign, QString.readDigits, QString.digitVal]
  norm_num

theorem toFloat_15_2 : QString.toFloat "15.2".toList = QFloat.fin (76 / 5) := by
  simp [QString.toFloat, QString.parseDecimal, QString.trimmed, QString.isSpace,
    QString.readSign, QString.readDigits, QString.digitVal]
  norm_num

/-- C4: what `readSerial` does with a line. If splitting the line on the comma gives
exactly three fields, the record is processed as a sample whose angle, distance and raw
height are the values of the fields, the value of a field that does not convert being 0.0;
otherwise, if the line is `LASER_ACTIVATED` or `LASER_DEACTIVATED`, the corresponding
laser status is handled; every other line is ignored (the state is unchanged). The line
`30,120.5,15.2` is the sample (30, 120.5, 15.2), `LASER_ACTIVATED` is the laser-activated
event and `garbage` is ignored. -/
theorem line_dispatch (cfg : Config) (line : QString) (s : State) :
    (∀ a b c : QString, QString.split ',' line = [a, b, c] →
        dispatchLine cfg line s
          = processSample cfg (QString.toFloat a) (QString.toFloat b) (QString.toFloat c) s)
      ∧ (∀ f : QString, QString.parseDecimal f = none → QString.toFloat f = QFloat.fin 0)
      ∧ (∀ (f : QString) (q : ℚ), QString.parseDecimal f = some q →
          QString.toFloat f = QFloat.fin q)
      ∧ (line = laserActivatedText →
          (QString.split ',' line).length ≠ 3
            ∧ dispatchLine cfg line s = handleLaserStatus "LASER_ACTIVATED" s)
      ∧ (line = laserDeactivatedText →
          (QString.split ',' line).length ≠ 3
            ∧ dispatchLine cfg line s = handleLaserStatus "LASER_DEACTIVATED" s)
      ∧ ((QString.split ',' line).length ≠ 3 → line ≠ laserActivatedText →
          line ≠ laserDeactivatedText → dispatchLine cfg line s = s)
      ∧ dispatchLine cfg "30,120.5,15.2".toList s
          = processSample cfg (QFloat.fin 30) (QFloat.fin (241 / 2)) (QFloat.fin (76 / 5)) s
      ∧ dispatchLine cfg "LASER_ACTIVATED".toList s = handleLaserStatus "LASER_ACTIVATED" s
      ∧ dispatchLine cfg "garbage".toList s = s := by
  refine ⟨?_, ?_, ?_, ?_, ?_, ?_, ?_, ?_, ?_⟩
  · intro a b c h
    unfold dispatchLine
    rw [if_pos (contains_of_split_three line a b c h), processRadarData_of_three cfg line a b c s h]
  · intro f h
    unfold QString.toFloat
    rw [h]
  · intro f q h
    unfold QString.toFloat
    rw [h]
  · intro h
    subst h
    exact ⟨by decide, rfl⟩
  · intro h
    subst h
    exact ⟨by decide, rfl⟩
  · intro h3 ha hd
    unfold dispatchLine
    by_cases hc : QString.contains line ',' = true
    · rw [if_pos hc, processRadarData_of_not_three cfg line s h3]
    · rw [if_neg hc, if_neg ha, if_neg hd]
  · have h : QString.split ',' "30,120.5,15.2".toList = ["30".toList, "120.5".toList, "15.2".toList] := by
      decide
    have hc : QString.contains "30,120.5,15.2".toList ',' = true := by decide
    unfold dispatchLine
    rw [if_pos hc, processRadarData_of_three cfg _ _ _ _ s h, toFloat_30, toFloat_120_5,
      toFloat_15_2]
  · rfl
  · rfl


theorem line_dispatch_witness :
    QString.split ',' "1,x,2.5".toList = ["1".toList, "x".toList, "2.5".toList]
      ∧ QString.parseDecimal "x".toList = none
      ∧ dispatchLine sampleConfig "1,x,2.5".toList (init sampleConfig true 0)
          = processSample sampleConfig (QString.toFloat "1".toList) (QString.toFloat "x".toList)
              (QString.toFloat "2.5".toList) (init sampleConfig true 0)
      ∧ QString.toFloat "x".toList = QFloat.fin 0 :=
  ⟨by decide, by rfl,
    (line_dispatch sampleConfig "1,x,2.5".toList (init sampleConfig true 0)).1 _ _ _
      (by decide),
    (line_dispatch sampleConfig "1,x,2.5".toList (init sampleConfig true 0)).2.1 _ (by rfl)⟩

/-! ### Samples, the laser and the mode -/

theorem updateDetectionPoint_eq (cfg : Config) (angle distance height : QFloat) (s : State) :
    updateDetectionPoint cfg angle distance height s
      = { s with
          detectionPoints :=
            if QFloat.lt (QFloat.fin 0) distance = true
                ∧ QFloat.le distance cfg.MAX_DETECTION_RANGE = true
            then insertDetectionPoint (projectPoint cfg angle distance) s.detectionPoints
            else s.detectionPoints
          needle := needleTriangle cfg (cfg.qDegreesToRadians angle) } := by
  unfold updateDetectionPoint
  by_cases h : QFloat.lt (QFloat.fin 0) distance = true
      ∧ QFloat.le distance cfg.MAX_DETECTION_RANGE = true
  · have h2 : (QFloat.lt (QFloat.fin 0) distance
        && QFloat.le distance cfg.MAX_DETECTION_RANGE) = true := by simp [h.1, h.2]
    rw [if_pos h2, if_pos h]
  · have h2 : ¬ ((QFloat.lt (QFloat.fin 0) distance
        && QFloat.le distance cfg.MAX_DETECTION_RANGE) = true) := by
      simpa using h
    rw [if_neg h2, if_neg h]

theorem handleLaserActivation_eq (s : State) :
    handleLaserActivation s
      = { s with laserActive := true, laserStatusText := some "Laser: On",
                 written := s.written ++ [Command.laserOn], laserTimer := some 2000 } := rfl

/-- The sample lies in the laser activation band. -/
theorem inBand_iff (cfg : Config) (distance : QFloat) :
    (QFloat.le cfg.LASER_ACTIVATION_MIN_RANGE distance
        && QFloat.le distance cfg.LASER_ACTIVATION_MAX_RANGE) = true
      ↔ QFloat.le cfg.LASER_ACTIVATION_MIN_RANGE distance = true
          ∧ QFloat.le distance cfg.LASER_ACTIVATION_MAX_RANGE = true := by
  simp

theorem processSample_inBand_inactive (cfg : Config) (angle distance rawHeight : QFloat)
    (s : State)
    (hb : QFloat.le cfg.LASER_ACTIVATION_MIN_RANGE distance = true
      ∧ QFloat.le distance cfg.LASER_ACTIVATION_MAX_RANGE = true)
    (hl : s.laserActive = false) :
    processSample cfg angle distance rawHeight s
      = { updateDetectionPoint cfg angle distance (getCalibratedHeight s rawHeight) s with
          points3D := s.points3D ++ [(angle, distance, getCalibratedHeight s rawHeight)]
          heightSeries := s.heightSeries ++ [getCalibratedHeight s rawHeight]
          angleLabel := some angle
          rangeLabel := some distance
          heightLabel := some (getCalibratedHeight s rawHeight)
          detectionStatusText := some "Object Detected (Laser Range)"
          detectionStatusStyle := some "color: red;"
          laserActive := true
          laserStatusText := some "Laser: On"
          written := s.written ++ [Command.laserOn]
          laserTimer := some 2000 } := by
  unfold processSample
  simp only [(inBand_iff cfg distance).mpr hb, if_true, updateDetectionPoint_eq, hl,
    Bool.not_false, handleLaserActivation_eq]

theorem processSample_inBand_active (cfg : Config) (angle distance rawHeight : QFloat)
    (s : State)
    (hb : QFloat.le cfg.LASER_ACTIVATION_MIN_RANGE distance = true
      ∧ QFloat.le distance cfg.LASER_ACTIVATION_MAX_RANGE = true)
    (hl : s.laserActive = true) :
    processSample cfg angle distance rawHeight s
      = { updateDetectionPoint cfg angle distance (getCalibratedHeight s rawHeight) s with
          points3D := s.points3D ++ [(angle, distance, getCalibratedHeight s rawHeight)]
          heightSeries := s.heightSeries ++ [getCalibratedHeight s rawHeight]
          angleLabel := some angle
          rangeLabel := some distance
          heightLabel := some (getCalibratedHeight s rawHeight)
          detectionStatusText := some "Object Detected (Laser Range)"
          detectionStatusStyle := some "color: red;" } := by
  unfold processSample
  simp only [(inBand_iff cfg distance).mpr hb, if_true, updateDetectionPoint_eq, hl,
    Bool.not_true, Bool.false_eq_true, if_false]

theorem processSample_outOfBand (cfg : Config) (angle distance rawHeight : QFloat)
    (s : State)
    (hb : ¬ (QFloat.le cfg.LASER_ACTIVATION_MIN_RANGE distance = true
      ∧ QFloat.le distance cfg.LASER_ACTIVATION_MAX_RANGE = true)) :
    processSample cfg angle distance rawHeight s
      = { updateDetectionPoint cfg angle distance (getCalibratedHeight s rawHeight) s with
          points3D := s.points3D ++ [(angle, distance, getCalibratedHeight s rawHeight)]
          heightSeries := s.heightSeries ++ [getCalibratedHeight s rawHeight]
          angleLabel := some angle
          rangeLabel := some distance
          heightLabel := some (getCalibratedHeight s rawHeight)
          detectionStatusText :=
            some (if (QFloat.lt cfg.LASER_ACTIVATION_MAX_RANGE distance
                && QFloat.le distance cfg.MAX_DETECTION_RANGE) = true
              then "Object Detected" else "No Object")
          detectionStatusStyle :=
            some (if (QFloat.lt cfg.LASER_ACTIVATION_MAX_RANGE distance
                && QFloat.le distance cfg.MAX_DETECTION_RANGE) = true
              then "color: orange;" else "color: green;") } := by
  unfold processSample
  have h : ¬ ((QFloat.le cfg.LASER_ACTIVATION_MIN_RANGE distance
        && QFloat.le distance cfg.LASER_ACTIVATION_MAX_RANGE) = true) := by
    rw [inBand_iff]; exact hb
  simp only [h, Bool.false_eq_true, if_false, updateDetectionPoint_eq]


/-- C7: processing a sample whose distance lies in the laser activation band while the
laser is inactive activates the laser, arms the hold timer with 2000 ms and writes exactly
one command, `LASER_ON`; if the laser is already active, or the distance lies outside the
band, nothing is written and the laser and the hold timer are unchanged. -/
theorem sample_local_trigger (cfg : Config) (angle distance rawHeight : QFloat) (s : State) :
    ((QFloat.le cfg.LASER_ACTIVATION_MIN_RANGE distance = true
          ∧ QFloat.le distance cfg.LASER_ACTIVATION_MAX_RANGE = true)
        ∧ s.laserActive = false →
        (processSample cfg angle distance rawHeight s).laserActive = true
          ∧ (processSample cfg angle distance rawHeight s).laserTimer = some 2000
          ∧ (processSample cfg angle distance rawHeight s).written
              = s.written ++ [Command.laserOn])
      ∧ (s.laserActive = true
          ∨ ¬ (QFloat.le cfg.LASER_ACTIVATION_MIN_RANGE distance = true
            ∧ QFloat.le distance cfg.LASER_ACTIVATION_MAX_RANGE = true) →
        (processSample cfg angle distance rawHeight s).written = s.written
          ∧ (processSample cfg angle distance rawHeight s).laserActive = s.laserActive
          ∧ (processSample cfg angle distance rawHeight s).laserTimer = s.laserTimer) := by
  refine ⟨?_, ?_⟩
  · rintro ⟨hb, hl⟩
    rw [processSample_inBand_inactive cfg angle distance rawHeight s hb hl]
    exact ⟨rfl, rfl, rfl⟩
  · intro h
    by_cases hb : QFloat.le cfg.LASER_ACTIVATION_MIN_RANGE distance = true
        ∧ QFloat.le distance cfg.LASER_ACTIVATION_MAX_RANGE = true
    · have hl : s.laserActive = true := h.resolve_right (fun hn => hn hb)
      rw [processSample_inBand_active cfg angle distance rawHeight s hb hl,
        updateDetectionPoint_eq]
      exact ⟨rfl, rfl, rfl⟩
    · rw [processSample_outOfBand cfg angle distance rawHeight s hb, updateDetectionPoint_eq]
      exact ⟨rfl, rfl, rfl⟩

theorem sample_local_trigger_witness :
    (QFloat.le sampleConfig.LASER_ACTIVATION_MIN_RANGE (QFloat.fin 30) = true
        ∧ QFloat.le (QFloat.fin 30) sampleConfig.LASER_ACTIVATION_MAX_RANGE = true)
      ∧ (init sampleConfig true 0).laserActive = false
      ∧ (processSample sampleConfig (QFloat.fin 90) (QFloat.fin 30) (QFloat.fin 5)
          (init sampleConfig true 0)).written = [Command.laserOn]
      ∧ (processSample sampleConfig (QFloat.fin 90) (QFloat.fin 300) (QFloat.fin 5)
          (init sampleConfig true 0)).written = [] :=
  ⟨⟨by decide, by decide⟩, rfl,
    ((sample_local_trigger sampleConfig (QFloat.fin 90) (QFloat.fin 30) (QFloat.fin 5)
      (init sampleConfig true 0)).1 ⟨⟨by decide, by decide⟩, rfl⟩).2.2,
    ((sample_local_trigger sampleConfig (QFloat.fin 90) (QFloat.fin 300) (QFloat.fin 5)
      (init sampleConfig true 0)).2 (Or.inr (by decide))).1⟩

/-- C9: the Auto button flips the mode. Entering Auto starts the sweep cadence timer
(50 ms), disables the manual angle controls and writes exactly `AUTO`; entering Manual
stops the sweep cadence timer, enables the manual controls and writes exactly `MANUAL`.
The laser state, the hold timer, the sweep angle and the sweep direction are unchanged,
and two consecutive presses restore the mode. -/
theorem toggle_auto (s : State) :
    (on_button_auto_clicked s).autoMode = !s.autoMode
      ∧ (s.autoMode = false →
          (on_button_auto_clicked s).autoTimer = some 50
            ∧ (on_button_auto_clicked s).controlsEnabled = false
            ∧ (on_button_auto_clicked s).written = s.written ++ [Command.auto])
      ∧ (s.autoMode = true →
          (on_button_auto_clicked s).autoTimer = none
            ∧ (on_button_auto_clicked s).controlsEnabled = true
            ∧ (on_button_auto_clicked s).written = s.written ++ [Command.manual])
      ∧ (on_button_auto_clicked s).laserActive = s.laserActive
      ∧ (on_button_auto_clicked s).laserTimer = s.laserTimer
      ∧ (on_button_auto_clicked s).sweepAngle = s.sweepAngle
      ∧ (on_button_auto_clicked s).increasing = s.increasing
      ∧ (on_button_auto_clicked (on_button_auto_clicked s)).autoMode = s.autoMode := by
  cases h : s.autoMode <;> simp [on_button_auto_clicked, setSliderEnabled, h]

theorem toggle_auto_witness :
    (init sampleConfig true 0).autoMode = false
      ∧ (on_button_auto_clicked (init sampleConfig true 0)).written = [Command.auto]
      ∧ (on_button_auto_clicked (init sampleConfig true 0)).autoMode = true
      ∧ (on_button_auto_clicked (on_button_auto_clicked (init sampleConfig true 0))).written
          = [Command.auto, Command.manual] :=
  ⟨rfl, ((toggle_auto (init sampleConfig true 0)).2.1 rfl).2.2, rfl,
    ((toggle_auto (on_button_auto_clicked (init sampleConfig true 0))).2.2.1 rfl).2.2⟩


theorem deactivateLaser_eq (s : State) :
    deactivateLaser s
      = { s with laserActive := false, laserStatusText := some "Laser: Off",
                 written := s.written ++ [Command.laserOff], laserTimer := none,
                 resumeTimer := some 0 } := rfl

theorem resumeOperation_eq (s : State) :
    resumeOperation s
      = { s with resumeTimer := none,
                 written := s.written ++ [if s.autoMode then Command.auto else Command.manual] } := by
  unfold resumeOperation
  by_cases h : s.autoMode = true
  · simp only [h, if_true]
  · simp only [h, if_false, Bool.false_eq_true]

/-- C6: from the state after the constructor (Manual, laser inactive), the Auto button,
then a sample whose distance lies in the laser activation band, then the expiry of the
hold timer, then the expiry of the resume timer, leave the mode Auto and the laser
inactive, and the commands written are exactly `AUTO`, `LASER_ON`, `LASER_OFF`, `AUTO` in
that order. In any state, `deactivateLaser` makes the laser inactive, writes `LASER_OFF`
and arms the resume timer, and `resumeOperation` writes `AUTO` in Auto mode and `MANUAL`
otherwise and disarms the resume timer. -/
theorem laser_cycle_commands (cfg : Config) (portAvailable : Bool) (sliderValue : Int)
    (angle distance rawHeight : QFloat) (s : State)
    (hb : QFloat.le cfg.LASER_ACTIVATION_MIN_RANGE distance = true
      ∧ QFloat.le distance cfg.LASER_ACTIVATION_MAX_RANGE = true) :
    let s0 := init cfg portAvailable sliderValue
    let s1 := step cfg Event.userToggleAuto s0
    let s2 := processSample cfg angle distance rawHeight s1
    let s3 := step cfg Event.laserHoldExpired s2
    let s4 := step cfg Event.resumeTick s3
    (s0.autoMode = false ∧ s0.laserActive = false)
      ∧ (s1.autoMode = true ∧ s1.autoTimer = some 50)
      ∧ (s2.laserActive = true ∧ s2.laserTimer = some 2000)
      ∧ (s3 = deactivateLaser s2 ∧ s4 = resumeOperation s3)
      ∧ (s4.autoMode = true ∧ s4.laserActive = false)
      ∧ s4.written = [Command.auto, Command.laserOn, Command.laserOff, Command.auto]
      ∧ ((deactivateLaser s).laserActive = false
          ∧ (deactivateLaser s).written = s.written ++ [Command.laserOff]
          ∧ (deactivateLaser s).resumeTimer = some 0
          ∧ (deactivateLaser s).autoMode = s.autoMode)
      ∧ ((resumeOperation s).written
            = s.written ++ [if s.autoMode then Command.auto else Command.manual]
          ∧ (resumeOperation s).resumeTimer = none
          ∧ (resumeOperation s).autoMode = s.autoMode
          ∧ (resumeOperation s).laserActive = s.laserActive) := by
  intro s0 s1 s2 s3 s4
  have h1 : s1 = on_button_auto_clicked s0 := rfl
  have hl1 : s1.laserActive = false := rfl
  have h2 : s2 = _ := processSample_inBand_inactive cfg angle distance rawHeight s1 hb hl1
  have h3 : s3 = deactivateLaser s2 := by
    show (if s2.laserTimer.isSome then deactivateLaser s2 else s2) = _
    rw [h2]; rfl
  have h4 : s4 = resumeOperation s3 := by
    show (if s3.resumeTimer.isSome then resumeOperation s3 else s3) = _
    rw [h3]; rfl
  refine ⟨⟨rfl, rfl⟩, ⟨rfl, rfl⟩, ⟨by rw [h2], by rw [h2]⟩, ⟨h3, h4⟩, ?_, ?_, ⟨rfl, rfl, rfl, rfl⟩, ?_⟩
  · rw [h4, h3, h2, resumeOperation_eq, deactivateLaser_eq, updateDetectionPoint_eq]
    exact ⟨rfl, rfl⟩
  · rw [h4, h3, h2, resumeOperation_eq, deactivateLaser_eq, updateDetectionPoint_eq]
    rfl
  · rw [resumeOperation_eq]
    exact ⟨rfl, rfl, rfl, rfl⟩

theorem laser_cycle_commands_witness :
    (QFloat.le sampleConfig.LASER_ACTIVATION_MIN_RANGE (QFloat.fin 30) = true
        ∧ QFloat.le (QFloat.fin 30) sampleConfig.LASER_ACTIVATION_MAX_RANGE = true)
      ∧ (step sampleConfig Event.resumeTick (step sampleConfig Event.laserHoldExpired
          (processSample sampleConfig (QFloat.fin 90) (QFloat.fin 30) (QFloat.fin 5)
            (step sampleConfig Event.userToggleAuto (init sampleConfig true 0))))).written
          = [Command.auto, Command.laserOn, Command.laserOff, Command.auto] :=
  ⟨⟨by decide, by decide⟩,
    (laser_cycle_commands sampleConfig true 0 (QFloat.fin 90) (QFloat.fin 30) (QFloat.fin 5)
      (init sampleConfig true 0) ⟨by decide, by decide⟩).2.2.2.2.2.1⟩

/-! ### Preset buttons and calibration -/

/-- C5: in Manual mode with the laser active (the state after the constructor followed by
the line `LASER_ACTIVATED` from the device), pressing the preset button 90 writes the angle
command 90 and moves the slider to 90, whereas moving the slider in the same state writes
nothing: the preset slots test only the mode, the slider slot tests the mode and the
laser. -/
theorem preset_button_ignores_laser :
    (run sampleConfig [Event.serialData "LASER_ACTIVATED\n".toList]
        (init sampleConfig true 0)).autoMode = false
      ∧ (run sampleConfig [Event.serialData "LASER_ACTIVATED\n".toList]
        (init sampleConfig true 0)).laserActive = true
      ∧ (run sampleConfig [Event.serialData "LASER_ACTIVATED\n".toList]
        (init sampleConfig true 0)).written = []
      ∧ (run sampleConfig
          [Event.serialData "LASER_ACTIVATED\n".toList, Event.userPreset Preset.p90]
          (init sampleConfig true 0)).written = [Command.angle 90]
      ∧ (run sampleConfig
          [Event.serialData "LASER_ACTIVATED\n".toList, Event.userPreset Preset.p90]
          (init sampleConfig true 0)).sliderValue = 90
      ∧ (run sampleConfig
          [Event.serialData "LASER_ACTIVATED\n".toList, Event.userMoveSlider 90]
          (init sampleConfig true 0)).written = [] := by
  refine ⟨?_, ?_, ?_, ?_, ?_, ?_⟩ <;> decide


theorem measureLoop_fin (q : Nat → ℚ) (reading : Nat → QFloat)
    (h : ∀ i, reading i = QFloat.fin (q i)) :
    ∀ (n i : Nat) (acc : ℚ),
      measureLoop reading n i (QFloat.fin acc)
        = QFloat.fin (acc + ∑ j in Finset.range n, q (i + j)) := by
  intro n
  induction n with
  | zero => intro i acc; simp [measureLoop]
  | succ n ih =>
    intro i acc
    rw [measureLoop, h i, QFloat.add, ih (i + 1) (acc + q i), Finset.sum_range_succ']
    congr 1
    have e : ∀ j, q (i + 1 + j) = q (i + (j + 1)) := fun j => by congr 1; omega
    simp only [e, add_zero]
    ring

theorem performCalibration_factor (knownHeight : QFloat) (reading : Nat → QFloat) (s : State) :
    (performCalibration knownHeight reading s).calibrationFactor
      = QFloat.div knownHeight
          (QFloat.div (measureLoop reading 10 0 (QFloat.fin 0)) (QFloat.fin 10)) := by
  simp [performCalibration]

theorem average_of_zero_readings :
    QFloat.div (measureLoop (fun _ => QFloat.fin 0) 10 0 (QFloat.fin 0)) (QFloat.fin 10)
      = QFloat.fin 0 := by
  rw [measureLoop_fin (fun _ => 0) (fun _ => QFloat.fin 0) (fun _ => rfl) 10 0 0, QFloat.div]
  simp

/-- C8 fails as stated: with ten readings of 0 (average zero) and a known height of 100,
`performCalibration` shows `Calibration Complete`, surfaces no error, and replaces the
factor 1 by the infinity that the division by zero gives. -/
theorem calibration_zero_average_overwrites :
    QFloat.div (measureLoop (fun _ => QFloat.fin 0) 10 0 (QFloat.fin 0)) (QFloat.fin 10)
        = QFloat.fin 0
      ∧ (init sampleConfig true 0).calibrationFactor = QFloat.fin 1
      ∧ (performCalibration (QFloat.fin 100) (fun _ => QFloat.fin 0)
          (init sampleConfig true 0)).calibrationFactor = QFloat.inf false
      ∧ (performCalibration (QFloat.fin 100) (fun _ => QFloat.fin 0)
          (init sampleConfig true 0)).calibrationFactor
          ≠ (init sampleConfig true 0).calibrationFactor
      ∧ (performCalibration (QFloat.fin 100) (fun _ => QFloat.fin 0)
          (init sampleConfig true 0)).messageBoxes
          = [(MessageKind.information, "Calibration"),
             (MessageKind.information, "Calibration Complete")] := by
  have h : (performCalibration (QFloat.fin 100) (fun _ => QFloat.fin 0)
      (init sampleConfig true 0)).calibrationFactor = QFloat.inf false := by
    rw [performCalibration_factor, average_of_zero_readings, QFloat.div]
    simp
  refine ⟨average_of_zero_readings, rfl, h, ?_, rfl⟩
  rw [h]
  simp [init]

/-- C8, amended: `performCalibration` has no failure path. For every known height and
every readings it shows the two information boxes and commits the factor
`knownHeight / average` computed by floating point division, and the offset 0. For finite
readings the average is their sum over ten iterations divided by 10; when the average is a
non-zero finite value and the known height is finite, the factor is their quotient; when
the average is zero the factor committed is a NaN for a known height of zero and an
infinity otherwise. -/
theorem calibration_commits (knownHeight : QFloat) (reading : Nat → QFloat) (s : State) :
    (performCalibration knownHeight reading s).calibrationFactor
        = QFloat.div knownHeight
            (QFloat.div (measureLoop reading 10 0 (QFloat.fin 0)) (QFloat.fin 10))
      ∧ (performCalibration knownHeight reading s).calibrationOffset = QFloat.fin 0
      ∧ (performCalibration knownHeight reading s).messageBoxes
          = s.messageBoxes ++ [(MessageKind.information, "Calibration"),
              (MessageKind.information, "Calibration Complete")]
      ∧ (∀ q : Nat → ℚ, (∀ i, reading i = QFloat.fin (q i)) →
          QFloat.div (measureLoop reading 10 0 (QFloat.fin 0)) (QFloat.fin 10)
            = QFloat.fin ((∑ i in Finset.range 10, q i) / 10))
      ∧ (∀ k a : ℚ, knownHeight = QFloat.fin k →
          QFloat.div (measureLoop reading 10 0 (QFloat.fin 0)) (QFloat.fin 10) = QFloat.fin a →
          a ≠ 0 →
          (performCalibration knownHeight reading s).calibrationFactor = QFloat.fin (k / a))
      ∧ (∀ k : ℚ, knownHeight = QFloat.fin k →
          QFloat.div (measureLoop reading 10 0 (QFloat.fin 0)) (QFloat.fin 10) = QFloat.fin 0 →
          (performCalibration knownHeight reading s).calibrationFactor
            = if k = 0 then QFloat.nan else QFloat.inf (decide (k < 0))) := by
  have hf := performCalibration_factor knownHeight reading s
  refine ⟨hf, rfl, ?_, ?_, ?_, ?_⟩
  · simp [performCalibration]
  · intro q hq
    rw [measureLoop_fin q reading hq 10 0 0, QFloat.div]
    simp
  · intro k a hk ha ha0
    rw [hf, hk, ha, QFloat.div, if_neg ha0]
  · intro k hk ha
    rw [hf, hk, ha, QFloat.div, if_pos rfl]

theorem calibration_commits_witness :
    (performCalibration (QFloat.fin 100) (fun _ => QFloat.fin 50)
        (init sampleConfig true 0)).calibrationFactor = QFloat.fin (100 / 50)
      ∧ (performCalibration (QFloat.fin 100) (fun _ => QFloat.fin 0)
        (init sampleConfig true 0)).calibrationFactor
          = if (100 : ℚ) = 0 then QFloat.nan else QFloat.inf (decide ((100 : ℚ) < 0)) :=
  ⟨(calibration_commits (QFloat.fin 100) (fun _ => QFloat.fin 50)
      (init sampleConfig true 0)).2.2.2.2.1 100 50 rfl
      (by rw [measureLoop_fin (fun _ => 50) (fun _ => QFloat.fin 50) (fun _ => rfl) 10 0 0,
            QFloat.div]; norm_num)
      (by norm_num),
   (calibration_commits (QFloat.fin 100) (fun _ => QFloat.fin 0)
      (init sampleConfig true 0)).2.2.2.2.2 100 rfl average_of_zero_readings⟩

/-! ### The calibration model -/

theorem getCalibratedHeight_fin (s : State) (f o x : ℚ)
    (hf : s.calibrationFactor = QFloat.fin f) (ho : s.calibrationOffset = QFloat.fin o) :
    getCalibratedHeight s (QFloat.fin x) = QFloat.fin (x * f + o) := by
  unfold getCalibratedHeight
  rw [hf, ho]
  rfl

/-- C10 fails as stated: with factor 2 and offset 3 (not 0), `apply(5) * 1` equals
`apply(5 * 1)`. -/
theorem calibrated_height_scaling_by_one :
    ({ init sampleConfig true 0 with
        calibrationFactor := QFloat.fin 2, calibrationOffset := QFloat.fin 3 } : State).calibrationOffset
        ≠ QFloat.fin 0
      ∧ QFloat.mul
          (getCalibratedHeight
            { init sampleConfig true 0 with
              calibrationFactor := QFloat.fin 2, calibrationOffset := QFloat.fin 3 }
            (QFloat.fin 5))
          (QFloat.fin 1)
        = getCalibratedHeight
            { init sampleConfig true 0 with
              calibrationFactor := QFloat.fin 2, calibrationOffset := QFloat.fin 3 }
            (QFloat.mul (QFloat.fin 5) (QFloat.fin 1)) := by
  refine ⟨by decide, ?_⟩
  rw [QFloat.mul, getCalibratedHeight_fin _ 2 3 _ rfl rfl, getCalibratedHeight_fin _ 2 3 _ rfl rfl,
    QFloat.mul]
  norm_num

/-- C10, amended: for finite calibration parameters `factor` and `offset` and exact
arithmetic, `getCalibratedHeight raw = raw * factor + offset`, so the calibrated height of
0 is the offset; and `apply(x) * k` differs from `apply(x * k)` exactly when the offset is
not 0 and `k` is not 1. -/
theorem calibrated_height_affine (s : State) (f o x k : ℚ)
    (hf : s.calibrationFactor = QFloat.fin f) (ho : s.calibrationOffset = QFloat.fin o) :
    getCalibratedHeight s (QFloat.fin x) = QFloat.fin (x * f + o)
      ∧ getCalibratedHeight s (QFloat.fin 0) = s.calibrationOffset
      ∧ (QFloat.mul (getCalibratedHeight s (QFloat.fin x)) (QFloat.fin k)
            ≠ getCalibratedHeight s (QFloat.mul (QFloat.fin x) (QFloat.fin k))
          ↔ o ≠ 0 ∧ k ≠ 1) := by
  refine ⟨getCalibratedHeight_fin s f o x hf ho, ?_, ?_⟩
  · rw [getCalibratedHeight_fin s f o 0 hf ho, ho]
    simp
  · rw [QFloat.mul, getCalibratedHeight_fin s f o x hf ho,
      getCalibratedHeight_fin s f o (x * k) hf ho, QFloat.mul]
    simp only [ne_eq, QFloat.fin.injEq]
    constructor
    · intro h
      refine ⟨?_, ?_⟩
      · intro h0; apply h; rw [h0]; ring
      · intro h1; apply h; rw [h1]; ring
    · rintro ⟨h0, h1⟩ h
      have e : o * (k - 1) = 0 := by linear_combination h
      rcases mul_eq_zero.mp e with h2 | h2
      · exact h0 h2
      · exact h1 (by linarith)

theorem calibrated_height_affine_witness :
    getCalibratedHeight
        { init sampleConfig true 0 with
          calibrationFactor := QFloat.fin 2, calibrationOffset := QFloat.fin 3 }
        (QFloat.fin 5) = QFloat.fin (5 * 2 + 3)
      ∧ QFloat.mul
          (getCalibratedHeight
            { init sampleConfig true 0 with
              calibrationFactor := QFloat.fin 2, calibrationOffset := QFloat.fin 3 }
            (QFloat.fin 5))
          (QFloat.fin 4)
        ≠ getCalibratedHeight
            { init sampleConfig true 0 with
              calibrationFactor := QFloat.fin 2, calibrationOffset := QFloat.fin 3 }
            (QFloat.mul (QFloat.fin 5) (QFloat.fin 4)) :=
  ⟨(calibrated_height_affine _ 2 3 5 4 rfl rfl).1,
    (calibrated_height_affine _ 2 3 5 4 rfl rfl).2.2.mpr ⟨by norm_num, by norm_num⟩⟩

/-! ### The sweep timer while the laser is active -/

theorem handleLaserStatus_activated_eq (s : State) :
    handleLaserStatus "LASER_ACTIVATED" s
      = { s with laserActive := true, laserStatusText := some "Laser: On",
                 laserTimer := some 2000,
                 autoTimer := if s.autoMode then none else s.autoTimer } := by
  unfold handleLaserStatus updateLaserStatus
  rw [if_pos rfl]
  by_cases h : s.autoMode = true
  · simp only [h, if_true]
  · simp only [h, if_false, Bool.false_eq_true]

theorem handleLaserStatus_deactivated_eq (s : State) :
    handleLaserStatus "LASER_DEACTIVATED" s
      = { s with laserActive := false, laserStatusText := some "Laser: Off",
                 laserTimer := none,
                 autoTimer := if s.autoMode then some 50 else s.autoTimer } := by
  unfold handleLaserStatus updateLaserStatus
  rw [if_neg (by decide), if_pos rfl]
  by_cases h : s.autoMode = true
  · simp only [h, if_true]
  · simp only [h, if_false, Bool.false_eq_true]

/-- C14: with the laser active, the slot of the sweep timer (`updateServoAuto`) leaves the
whole state as it is: the sweep angle, the sweep direction and the slider are unchanged
and nothing is written to the device. This holds in particular right after an activation
reported by the device (`handleLaserStatus`) and right after an activation by the local
trigger (`handleLaserActivation`). -/
theorem sweep_tick_ignored_while_laser_active (cfg : Config) (s t : State)
    (hl : s.laserActive = true) :
    updateServoAuto cfg s = s
      ∧ (updateServoAuto cfg s).sweepAngle = s.sweepAngle
      ∧ (updateServoAuto cfg s).increasing = s.increasing
      ∧ (updateServoAuto cfg s).sliderValue = s.sliderValue
      ∧ (updateServoAuto cfg s).written = s.written
      ∧ step cfg Event.sweepTick s = s
      ∧ updateServoAuto cfg (handleLaserStatus "LASER_ACTIVATED" t)
          = handleLaserStatus "LASER_ACTIVATED" t
      ∧ updateServoAuto cfg (handleLaserActivation t) = handleLaserActivation t := by
  have h := updateServoAuto_of_active cfg s hl
  refine ⟨h, by rw [h], by rw [h], by rw [h], by rw [h], ?_, ?_, ?_⟩
  · show (if s.autoTimer.isSome then updateServoAuto cfg s else s) = s
    rw [h, ite_self]
  · exact updateServoAuto_of_active cfg _ (by rw [handleLaserStatus_activated_eq])
  · exact updateServoAuto_of_active cfg _ (by rw [handleLaserActivation_eq])

theorem sweep_tick_ignored_while_laser_active_witness :
    (handleLaserActivation (on_button_auto_clicked (init sampleConfig true 0))).laserActive = true
      ∧ updateServoAuto sampleConfig
          (handleLaserActivation (on_button_auto_clicked (init sampleConfig true 0)))
        = handleLaserActivation (on_button_auto_clicked (init sampleConfig true 0)) :=
  ⟨rfl, (sweep_tick_ignored_while_laser_active sampleConfig
    (handleLaserActivation (on_button_auto_clicked (init sampleConfig true 0)))
    (init sampleConfig true 0) rfl).1⟩

/-! ### The range gate of the detection history -/

theorem QFloat.lt_false_of_le (a b : QFloat) (h : QFloat.le a b = true) :
    QFloat.lt b a = false := by
  cases a <;> cases b <;> simp_all [QFloat.le, QFloat.lt]
  rename_i x y
  cases x <;> cases y <;> simp_all

theorem QFloat.le_false_of_lt (a b : QFloat) (h : QFloat.lt a b = true) :
    QFloat.le b a = false := by
  cases a <;> cases b <;> simp_all [QFloat.le, QFloat.lt]

/-- C17: `updateDetectionPoint` inserts the projected point into the detection history
when `0 < distance` and `distance <= MAX_DETECTION_RANGE`, and otherwise (in particular
when `distance <= 0` or `distance > MAX_DETECTION_RANGE`) leaves the history as it is, the
same points in the same order; in both cases the needle is recomputed from the angle of
the sample. -/
theorem detection_point_range_gate (cfg : Config) (angle distance height : QFloat)
    (s : State) :
    (QFloat.lt (QFloat.fin 0) distance = true
        ∧ QFloat.le distance cfg.MAX_DETECTION_RANGE = true →
        (updateDetectionPoint cfg angle distance height s).detectionPoints
          = insertDetectionPoint (projectPoint cfg angle distance) s.detectionPoints)
      ∧ (¬ (QFloat.lt (QFloat.fin 0) distance = true
          ∧ QFloat.le distance cfg.MAX_DETECTION_RANGE = true) →
        (updateDetectionPoint cfg angle distance height s).detectionPoints
          = s.detectionPoints)
      ∧ (QFloat.le distance (QFloat.fin 0) = true
          ∨ QFloat.lt cfg.MAX_DETECTION_RANGE distance = true →
        (updateDetectionPoint cfg angle distance height s).detectionPoints
          = s.detectionPoints)
      ∧ (updateDetectionPoint cfg angle distance height s).needle
          = needleTriangle cfg (cfg.qDegreesToRadians angle) := by
  rw [updateDetectionPoint_eq]
  refine ⟨?_, ?_, ?_, rfl⟩
  · intro h
    show (if _ then _ else _) = _
    rw [if_pos h]
  · intro h
    show (if _ then _ else _) = _
    rw [if_neg h]
  · intro h
    show (if _ then _ else _) = _
    rw [if_neg]
    rintro ⟨h1, h2⟩
    rcases h with h | h
    · rw [QFloat.lt_false_of_le _ _ h] at h1
      exact Bool.false_ne_true h1
    · rw [QFloat.le_false_of_lt _ _ h] at h2
      exact Bool.false_ne_true h2

theorem detection_point_range_gate_witness :
    (QFloat.lt (QFloat.fin 0) (QFloat.fin 120) = true
        ∧ QFloat.le (QFloat.fin 120) sampleConfig.MAX_DETECTION_RANGE = true)
      ∧ (updateDetectionPoint sampleConfig (QFloat.fin 90) (QFloat.fin 120) (QFloat.fin 0)
          (init sampleConfig true 0)).detectionPoints
          = insertDetectionPoint (projectPoint sampleConfig (QFloat.fin 90) (QFloat.fin 120)) []
      ∧ QFloat.lt sampleConfig.MAX_DETECTION_RANGE (QFloat.fin 300) = true
      ∧ (updateDetectionPoint sampleConfig (QFloat.fin 90) (QFloat.fin 300) (QFloat.fin 0)
          (init sampleConfig true 0)).detectionPoints = [] :=
  ⟨⟨by decide, by decide⟩,
    (detection_point_range_gate sampleConfig (QFloat.fin 90) (QFloat.fin 120) (QFloat.fin 0)
      (init sampleConfig true 0)).1 ⟨by decide, by decide⟩,
    by decide,
    (detection_point_range_gate sampleConfig (QFloat.fin 90) (QFloat.fin 300) (QFloat.fin 0)
      (init sampleConfig true 0)).2.2.1 (Or.inr (by decide))⟩

/-! ### The control invariant of reachable states -/

/-- A property that holds after the constructor and is kept by every event holds in every
reachable state. -/
theorem reachable_induction (cfg : Config) (P : State → Prop)
    (h0 : ∀ (portAvailable : Bool) (sliderValue : Int), P (init cfg portAvailable sliderValue))
    (hstep : ∀ (e : Event) (s : State), P s → P (step cfg e s)) :
    ∀ s : State, Reachable cfg s → P s := by
  have hrun : ∀ (events : List Event) (s : State), P s → P (run cfg events s) := by
    intro events
    induction events with
    | nil => intro s hs; exact hs
    | cons e es ih => intro s hs; exact ih _ (hstep e s hs)
  rintro s ⟨portAvailable, sliderValue, events, rfl⟩
  exact hrun events _ (h0 portAvailable sliderValue)

/-- The loop of `readSerial` keeps whatever the handler of a line keeps. -/
theorem readLoop_preserves {σ : Type} (P : σ → Prop) (handle : QString → σ → σ)
    (hP : ∀ (line : QString) (st : σ), P st → P (handle line st)) :
    ∀ (fuel : Nat) (buf : QString) (st : σ), P st → P (readLoop handle fuel buf st).2 := by
  intro fuel
  induction fuel with
  | zero => intro buf st h; exact h
  | succ n ih =>
    intro buf st h
    rw [readLoop]
    split
    · exact ih _ _ (hP _ _ h)
    · exact h

theorem updateServoAuto_frame (cfg : Config) (s : State) :
    ∃ (a : Int) (i : Bool) (v : Int) (w : List Command),
      updateServoAuto cfg s
        = { s with sweepAngle := a, increasing := i, sliderValue := v, written := w } := by
  unfold updateServoAuto
  by_cases hl : s.laserActive = true
  · rw [if_neg (by simp [hl])]
    exact ⟨s.sweepAngle, s.increasing, s.sliderValue, s.written, rfl⟩
  · rw [if_pos (by simpa using hl)]
    simp only [setValue_eq, updateServo_eq]
    by_cases hi : s.increasing = true
    · by_cases h : s.sweepAngle + 2 ≥ 180
      · simp only [hi, h, if_true]
        exact ⟨_, _, _, _, rfl⟩
      · simp only [hi, h, if_true, if_false]
        exact ⟨_, _, _, _, rfl⟩
    · by_cases h : s.sweepAngle - 2 ≤ 0
      · simp only [hi, h, if_true, if_false]
        exact ⟨_, _, _, _, rfl⟩
      · simp only [hi, h, if_false]
        exact ⟨_, _, _, _, rfl⟩

theorem presetClicked_frame (cfg : Config) (a : Int) (s : State) :
    ∃ (v : Int) (w : List Command),
      presetClicked cfg a s = { s with sliderValue := v, written := w } := by
  unfold presetClicked
  by_cases h : s.autoMode = true
  · rw [if_neg (by simp [h])]
    exact ⟨s.sliderValue, s.written, rfl⟩
  · rw [if_pos (by simpa using h)]
    simp only [setValue_eq, updateServo_eq]
    exact ⟨_, _, rfl⟩

theorem presetSlot_frame (cfg : Config) (b : Preset) (s : State) :
    ∃ (v : Int) (w : List Command),
      presetSlot cfg b s = { s with sliderValue := v, written := w } := by
  cases b <;> exact presetClicked_frame cfg _ s

theorem on_button_auto_clicked_eq (s : State) :
    on_button_auto_clicked s
      = { s with autoMode := !s.autoMode
                 autoTimer := if s.autoMode then none else some 50
                 buttonAutoText := if s.autoMode then "Start Auto" else "Stop Auto"
                 controlsEnabled := s.autoMode
                 written := s.written ++ [if s.autoMode then Command.manual else Command.auto] } := by
  unfold on_button_auto_clicked setSliderEnabled
  by_cases h : s.autoMode = true
  · simp only [h, Bool.not_true, Bool.false_eq_true, if_false, if_true]
  · have h2 : s.autoMode = false := by simpa using h
    simp only [h2, Bool.not_false, if_true, Bool.false_eq_true, if_false]

theorem init_controlInvariant (cfg : Config) (portAvailable : Bool) (sliderValue : Int) :
    ControlInvariant (init cfg portAvailable sliderValue) := by
  simp [ControlInvariant, init]

theorem processSample_controlInvariant (cfg : Config) (angle distance rawHeight : QFloat)
    (s : State) (h : ControlInvariant s) :
    ControlInvariant (processSample cfg angle distance rawHeight s) := by
  by_cases hb : QFloat.le cfg.LASER_ACTIVATION_MIN_RANGE distance = true
      ∧ QFloat.le distance cfg.LASER_ACTIVATION_MAX_RANGE = true
  · by_cases hl : s.laserActive = true
    · rw [processSample_inBand_active cfg angle distance rawHeight s hb hl,
        updateDetectionPoint_eq]
      exact h
    · rw [processSample_inBand_inactive cfg angle distance rawHeight s hb (by simpa using hl),
        updateDetectionPoint_eq]
      exact ⟨h.1, by simp, by simp, h.2.2.2⟩
  · rw [processSample_outOfBand cfg angle distance rawHeight s hb, updateDetectionPoint_eq]
    exact h

theorem handleLaserStatus_activated_controlInvariant (s : State) (h : ControlInvariant s) :
    ControlInvariant (handleLaserStatus "LASER_ACTIVATED" s) := by
  rw [handleLaserStatus_activated_eq]
  refine ⟨?_, by simp, by simp, h.2.2.2⟩
  intro ht
  by_cases ha : s.autoMode = true
  · exact ha
  · simp only [ha, if_false, Bool.false_eq_true] at ht
    exact h.1 ht

theorem handleLaserStatus_deactivated_controlInvariant (s : State) (h : ControlInvariant s) :
    ControlInvariant (handleLaserStatus "LASER_DEACTIVATED" s) := by
  rw [handleLaserStatus_deactivated_eq]
  refine ⟨?_, by simp, by simp, h.2.2.2⟩
  intro ht
  by_cases ha : s.autoMode = true
  · exact ha
  · simp only [ha, if_false, Bool.false_eq_true] at ht
    exact h.1 ht

theorem dispatchLine_controlInvariant (cfg : Config) (line : QString) (s : State)
    (h : ControlInvariant s) : ControlInvariant (dispatchLine cfg line s) := by
  unfold dispatchLine
  split
  · unfold processRadarData
    split
    · exact processSample_controlInvariant cfg _ _ _ s h
    · exact h
  · split
    · exact handleLaserStatus_activated_controlInvariant s h
    · split
      · exact handleLaserStatus_deactivated_controlInvariant s h
      · exact h

theorem readSerial_controlInvariant (cfg : Config) (data : QString) (s : State)
    (h : ControlInvariant s) : ControlInvariant (readSerial cfg data s) := by
  unfold readSerial
  exact readLoop_preserves ControlInvariant (dispatchLine cfg)
    (dispatchLine_controlInvariant cfg) _ _ s h

theorem step_controlInvariant (cfg : Config) (e : Event) (s : State)
    (h : ControlInvariant s) : ControlInvariant (step cfg e s) := by
  cases e with
  | userToggleAuto =>
    show ControlInvariant (on_button_auto_clicked s)
    rw [on_button_auto_clicked_eq]
    refine ⟨?_, h.2.1, h.2.2.1, h.2.2.2⟩
    intro ht
    by_cases ha : s.autoMode = true
    · simp [ha] at ht
    · simpa using ha
  | userPreset b =>
    show ControlInvariant (if s.controlsEnabled then presetSlot cfg b s else s)
    split
    · obtain ⟨v, w, e⟩ := presetSlot_frame cfg b s
      rw [e]; exact h
    · exact h
  | userMoveSlider v =>
    show ControlInvariant (if s.controlsEnabled then setValue cfg v s else s)
    split
    · rw [setValue_eq]; exact h
    · exact h
  | serialData data =>
    show ControlInvariant (if s.writable then readSerial cfg data s else s)
    split
    · exact readSerial_controlInvariant cfg data s h
    · exact h
  | sweepTick =>
    show ControlInvariant (if s.autoTimer.isSome then updateServoAuto cfg s else s)
    split
    · obtain ⟨a, i, v, w, e⟩ := updateServoAuto_frame cfg s
      rw [e]; exact h
    · exact h
  | laserHoldExpired =>
    show ControlInvariant (if s.laserTimer.isSome then deactivateLaser s else s)
    split
    · rw [deactivateLaser_eq]
      exact ⟨h.1, by simp, by simp, h.2.2.2⟩
    · exact h
  | resumeTick =>
    show ControlInvariant (if s.resumeTimer.isSome then resumeOperation s else s)
    split
    · rw [resumeOperation_eq]; exact h
    · exact h
  | userCalibrate knownHeight reading =>
    show ControlInvariant (if _ then performCalibration knownHeight reading s else s)
    split
    · exact ⟨h.1, h.2.1, h.2.2.1, rfl⟩
    · exact h

/-- Every reachable state satisfies the control invariant. -/
theorem reachable_controlInvariant (cfg : Config) (s : State) (h : Reachable cfg s) :
    ControlInvariant s :=
  reachable_induction cfg ControlInvariant (init_controlInvariant cfg)
    (step_controlInvariant cfg) s h

/-! ### Timers and the laser interlock -/

/-- C12 fails as stated: in Auto mode an in-band sample activates the laser by the local
trigger and the sweep cadence timer stays active; and entering Auto while the laser is
active starts the sweep cadence timer. -/
theorem sweep_timer_active_with_laser_active :
    (run sampleConfig [Event.userToggleAuto, Event.serialData "90,30,5\n".toList]
        (init sampleConfig true 0)).autoMode = true
      ∧ (run sampleConfig [Event.userToggleAuto, Event.serialData "90,30,5\n".toList]
        (init sampleConfig true 0)).laserActive = true
      ∧ (run sampleConfig [Event.userToggleAuto, Event.serialData "90,30,5\n".toList]
        (init sampleConfig true 0)).autoTimer = some 50
      ∧ (run sampleConfig [Event.serialData "LASER_ACTIVATED\n".toList, Event.userToggleAuto]
        (init sampleConfig true 0)).laserActive = true
      ∧ (run sampleConfig [Event.serialData "LASER_ACTIVATED\n".toList, Event.userToggleAuto]
        (init sampleConfig true 0)).autoTimer = some 50 := by
  refine ⟨?_, ?_, ?_, ?_, ?_⟩ <;> decide!

/-- C12, amended: in every reachable state the sweep cadence timer is active only in Auto
mode. An activation of the laser reported by the device (`handleLaserStatus`) leaves the
laser active and the sweep cadence timer inactive. Entering Auto starts the sweep cadence
timer whether or not the laser is active, and while the laser is active an expiry of the
sweep cadence timer changes nothing. -/
theorem sweep_timer_only_in_auto (cfg : Config) (s : State) (h : Reachable cfg s) :
    (s.autoTimer.isSome = true → s.autoMode = true)
      ∧ ((handleLaserStatus "LASER_ACTIVATED" s).laserActive = true
          ∧ (handleLaserStatus "LASER_ACTIVATED" s).autoTimer = none)
      ∧ (s.autoMode = false →
          (on_button_auto_clicked s).autoMode = true
            ∧ (on_button_auto_clicked s).autoTimer = some 50
            ∧ (on_button_auto_clicked s).laserActive = s.laserActive)
      ∧ (s.laserActive = true → step cfg Event.sweepTick s = s) := by
  have hi := reachable_controlInvariant cfg s h
  refine ⟨hi.1, ?_, ?_, ?_⟩
  · rw [handleLaserStatus_activated_eq]
    refine ⟨rfl, ?_⟩
    show (if s.autoMode = true then none else s.autoTimer) = none
    by_cases ha : s.autoMode = true
    · rw [if_pos ha]
    · rw [if_neg ha]
      cases ht : s.autoTimer with
      | none => rfl
      | some n => exact absurd (hi.1 (by rw [ht]; rfl)) ha
  · intro ha
    rw [on_button_auto_clicked_eq]
    simp [ha]
  · intro hl
    show (if s.autoTimer.isSome then updateServoAuto cfg s else s) = s
    rw [updateServoAuto_of_active cfg s hl, ite_self]

theorem sweep_timer_only_in_auto_witness :
    Reachable sampleConfig
        (run sampleConfig
          [Event.serialData "LASER_ACTIVATED\n".toList, Event.userToggleAuto]
          (init sampleConfig true 0))
      ∧ (run sampleConfig
          [Event.serialData "LASER_ACTIVATED\n".toList, Event.userToggleAuto]
          (init sampleConfig true 0)).laserActive = true
      ∧ step sampleConfig Event.sweepTick
          (run sampleConfig
            [Event.serialData "LASER_ACTIVATED\n".toList, Event.userToggleAuto]
            (init sampleConfig true 0))
        = run sampleConfig
            [Event.serialData "LASER_ACTIVATED\n".toList, Event.userToggleAuto]
            (init sampleConfig true 0) :=
  ⟨⟨true, 0, _, rfl⟩, by decide,
    (sweep_timer_only_in_auto sampleConfig _ ⟨true, 0, _, rfl⟩).2.2.2 (by decide)⟩

/-- C13: in Auto mode, after the line `LASER_ACTIVATED` from the device, the expiry of the
hold timer (`deactivateLaser`) and the expiry of the resume timer, the mode is Auto and
the laser inactive but the sweep cadence timer is not active, and a sweep tick cannot
occur; after the line `LASER_DEACTIVATED` instead the sweep cadence timer is active. -/
theorem sweep_timer_not_restarted_after_hold :
    (run sampleConfig
        [Event.userToggleAuto, Event.serialData "LASER_ACTIVATED\n".toList,
          Event.laserHoldExpired, Event.resumeTick]
        (init sampleConfig true 0)).autoMode = true
      ∧ (run sampleConfig
        [Event.userToggleAuto, Event.serialData "LASER_ACTIVATED\n".toList,
          Event.laserHoldExpired, Event.resumeTick]
        (init sampleConfig true 0)).laserActive = false
      ∧ (run sampleConfig
        [Event.userToggleAuto, Event.serialData "LASER_ACTIVATED\n".toList,
          Event.laserHoldExpired, Event.resumeTick]
        (init sampleConfig true 0)).autoTimer = none
      ∧ (run sampleConfig
        [Event.userToggleAuto, Event.serialData "LASER_ACTIVATED\n".toList,
          Event.laserHoldExpired, Event.resumeTick]
        (init sampleConfig true 0)).written
          = [Command.auto, Command.laserOff, Command.auto]
      ∧ (run sampleConfig
        [Event.userToggleAuto, Event.serialData "LASER_ACTIVATED\n".toList,
          Event.laserHoldExpired, Event.resumeTick, Event.sweepTick]
        (init sampleConfig true 0)).written
          = [Command.auto, Command.laserOff, Command.auto]
      ∧ (run sampleConfig
        [Event.userToggleAuto, Event.serialData "LASER_ACTIVATED\n".toList,
          Event.serialData "LASER_DEACTIVATED\n".toList]
        (init sampleConfig true 0)).autoTimer = some 50 := by
  refine ⟨?_, ?_, ?_, ?_, ?_, ?_⟩ <;> decide

/-- C18: in every reachable state the laser is active exactly when the hold timer is
armed, and it is then armed with 2000 ms; the laser is inactive exactly when the hold
timer is not armed. While the laser is active the expiry of the hold timer is pending and
makes the laser inactive; while it is inactive no expiry of the hold timer occurs. -/
theorem laser_active_iff_hold_timer (cfg : Config) (s : State) (h : Reachable cfg s) :
    (s.laserActive = true ↔ s.laserTimer.isSome = true)
      ∧ (s.laserActive = true ↔ s.laserTimer = some 2000)
      ∧ (s.laserActive = false ↔ s.laserTimer = none)
      ∧ (s.laserActive = true →
          step cfg Event.laserHoldExpired s = deactivateLaser s
            ∧ (step cfg Event.laserHoldExpired s).laserActive = false
            ∧ (step cfg Event.laserHoldExpired s).laserTimer = none)
      ∧ (s.laserActive = false → step cfg Event.laserHoldExpired s = s) := by
  have hi := reachable_controlInvariant cfg s h
  refine ⟨?_, hi.2.1, hi.2.2.1, ?_, ?_⟩
  · constructor
    · intro hl
      rw [hi.2.1.mp hl]; rfl
    · intro ht
      by_contra hl
      have hn := hi.2.2.1.mp (by simpa using hl)
      rw [hn] at ht
      exact Bool.false_ne_true ht
  · intro hl
    have e : step cfg Event.laserHoldExpired s = deactivateLaser s := by
      show (if s.laserTimer.isSome then deactivateLaser s else s) = _
      rw [hi.2.1.mp hl]; rfl
    rw [e]
    exact ⟨rfl, rfl, rfl⟩
  · intro hl
    show (if s.laserTimer.isSome then deactivateLaser s else s) = _
    rw [hi.2.2.1.mp hl]; rfl

theorem laser_active_iff_hold_timer_witness :
    Reachable sampleConfig
        (run sampleConfig [Event.serialData "LASER_ACTIVATED\n".toList]
          (init sampleConfig true 0))
      ∧ (run sampleConfig [Event.serialData "LASER_ACTIVATED\n".toList]
          (init sampleConfig true 0)).laserActive = true
      ∧ (run sampleConfig [Event.serialData "LASER_ACTIVATED\n".toList]
          (init sampleConfig true 0)).laserTimer = some 2000 :=
  ⟨⟨true, 0, _, rfl⟩, by decide,
    (laser_active_iff_hold_timer sampleConfig _ ⟨true, 0, _, rfl⟩).2.1.mp (by decide)⟩

/-! ### Malformed records -/

theorem dispatchLine_of_three (cfg : Config) (line a b c : QString) (s : State)
    (h : QString.split ',' line = [a, b, c]) :
    dispatchLine cfg line s
      = processSample cfg (QString.toFloat a) (QString.toFloat b) (QString.toFloat c) s := by
  unfold dispatchLine
  rw [if_pos (contains_of_split_three line a b c h), processRadarData_of_three cfg line a b c s h]

theorem processSample_points3D (cfg : Config) (angle distance rawHeight : QFloat) (s : State) :
    (processSample cfg angle distance rawHeight s).points3D
      = s.points3D ++ [(angle, distance, getCalibratedHeight s rawHeight)] := by
  by_cases hb : QFloat.le cfg.LASER_ACTIVATION_MIN_RANGE distance = true
      ∧ QFloat.le distance cfg.LASER_ACTIVATION_MAX_RANGE = true
  · by_cases hl : s.laserActive = true
    · rw [processSample_inBand_active cfg angle distance rawHeight s hb hl]
    · rw [processSample_inBand_inactive cfg angle distance rawHeight s hb (by simpa using hl)]
  · rw [processSample_outOfBand cfg angle distance rawHeight s hb]

theorem processSample_labels (cfg : Config) (angle distance rawHeight : QFloat) (s : State) :
    (processSample cfg angle distance rawHeight s).angleLabel = some angle
      ∧ (processSample cfg angle distance rawHeight s).rangeLabel = some distance
      ∧ (processSample cfg angle distance rawHeight s).needle
          = needleTriangle cfg (cfg.qDegreesToRadians angle) := by
  by_cases hb : QFloat.le cfg.LASER_ACTIVATION_MIN_RANGE distance = true
      ∧ QFloat.le distance cfg.LASER_ACTIVATION_MAX_RANGE = true
  · by_cases hl : s.laserActive = true
    · rw [processSample_inBand_active cfg angle distance rawHeight s hb hl,
        updateDetectionPoint_eq]
      exact ⟨rfl, rfl, rfl⟩
    · rw [processSample_inBand_inactive cfg angle distance rawHeight s hb (by simpa using hl),
        updateDetectionPoint_eq]
      exact ⟨rfl, rfl, rfl⟩
  · rw [processSample_outOfBand cfg angle distance rawHeight s hb, updateDetectionPoint_eq]
    exact ⟨rfl, rfl, rfl⟩

/-- C15 fails as stated: the record `x,30,5` has a first field that is not a number and is
not a laser token, yet processing it changes the state: the displayed angle and distance
are set, a 3D point is added, the laser is activated and `LASER_ON` is written. -/
theorem non_numeric_field_is_processed :
    QString.split ',' "x,30,5".toList = ["x".toList, "30".toList, "5".toList]
      ∧ QString.parseDecimal "x".toList = none
      ∧ "x,30,5".toList ≠ laserActivatedText ∧ "x,30,5".toList ≠ laserDeactivatedText
      ∧ (dispatchLine sampleConfig "x,30,5".toList (init sampleConfig true 0)).angleLabel
          = some (QFloat.fin 0)
      ∧ (dispatchLine sampleConfig "x,30,5".toList (init sampleConfig true 0)).rangeLabel
          = some (QFloat.fin 30)
      ∧ (dispatchLine sampleConfig "x,30,5".toList (init sampleConfig true 0)).points3D.length
          = 1
      ∧ (dispatchLine sampleConfig "x,30,5".toList (init sampleConfig true 0)).laserActive
          = true
      ∧ (dispatchLine sampleConfig "x,30,5".toList (init sampleConfig true 0)).written
          = [Command.laserOn]
      ∧ dispatchLine sampleConfig "x,30,5".toList (init sampleConfig true 0)
          ≠ init sampleConfig true 0 := by
  refine ⟨by decide, by rfl, by decide, by decide, by decide!, by decide!, by decide!,
    by decide!, by decide!, ?_⟩
  intro h
  have e : (dispatchLine sampleConfig "x,30,5".toList (init sampleConfig true 0)).laserActive
      = true := by decide!
  rw [h] at e
  exact Bool.false_ne_true e

/-- C15, amended: a record whose number of comma-separated fields is not 3 and that is not
one of the two laser tokens is discarded: the whole state is unchanged, so nothing is
written. A record of exactly 3 fields is always processed as a sample, a field that does
not convert to a number being read as 0.0: the displayed angle and distance are set, the
needle is recomputed and a 3D point is added. -/
theorem malformed_record_handling (cfg : Config) (line : QString) (s : State) :
    ((QString.split ',' line).length ≠ 3 → line ≠ laserActivatedText →
        line ≠ laserDeactivatedText → dispatchLine cfg line s = s)
      ∧ (∀ a b c : QString, QString.split ',' line = [a, b, c] →
          dispatchLine cfg line s
              = processSample cfg (QString.toFloat a) (QString.toFloat b)
                  (QString.toFloat c) s
            ∧ (dispatchLine cfg line s).angleLabel = some (QString.toFloat a)
            ∧ (dispatchLine cfg line s).rangeLabel = some (QString.toFloat b)
            ∧ (dispatchLine cfg line s).needle
                = needleTriangle cfg (cfg.qDegreesToRadians (QString.toFloat a))
            ∧ (dispatchLine cfg line s).points3D.length = s.points3D.length + 1
            ∧ dispatchLine cfg line s ≠ s)
      ∧ (∀ f : QString, QString.parseDecimal f = none → QString.toFloat f = QFloat.fin 0) := by
  refine ⟨?_, ?_, ?_⟩
  · intro h3 ha hd
    unfold dispatchLine
    by_cases hc : QString.contains line ',' = true
    · rw [if_pos hc, processRadarData_of_not_three cfg line s h3]
    · rw [if_neg hc, if_neg ha, if_neg hd]
  · intro a b c h
    have e := dispatchLine_of_three cfg line a b c s h
    have hl := processSample_labels cfg (QString.toFloat a) (QString.toFloat b)
      (QString.toFloat c) s
    have hp := processSample_points3D cfg (QString.toFloat a) (QString.toFloat b)
      (QString.toFloat c) s
    rw [← e] at hl hp
    refine ⟨e, hl.1, hl.2.1, hl.2.2, by rw [hp]; simp, ?_⟩
    intro hs
    have hlen := congrArg List.length hp
    rw [hs] at hlen
    simp at hlen
  · intro f h
    unfold QString.toFloat
    rw [h]

theorem malformed_record_handling_witness :
    (QString.split ',' "12,34".toList).length ≠ 3
      ∧ dispatchLine sampleConfig "12,34".toList (init sampleConfig true 0)
          = init sampleConfig true 0
      ∧ (dispatchLine sampleConfig "x,30,5".toList (init sampleConfig true 0)).angleLabel
          = some (QString.toFloat "x".toList) :=
  ⟨by decide,
    (malformed_record_handling sampleConfig "12,34".toList (init sampleConfig true 0)).1
      (by decide) (by decide) (by decide),
    ((malformed_record_handling sampleConfig "x,30,5".toList (init sampleConfig true 0)).2.1
      "x".toList "30".toList "5".toList (by decide)).2.1⟩

/-! ### Calibration factor and detection status -/

/-- C16 fails as stated: a known height of 0 is accepted by the prompt and, with ten
readings of 50, commits the factor 0, and with ten readings of 0 commits a NaN; a known
height of 100 with ten readings of -50 commits the factor -2. None is greater than 0. -/
theorem calibration_factor_not_positive :
    (QFloat.le (QFloat.fin 0) (QFloat.fin 0) && QFloat.le (QFloat.fin 0) (QFloat.fin 1000))
        = true
      ∧ (run sampleConfig [Event.userCalibrate (QFloat.fin 0) (fun _ => QFloat.fin 50)]
          (init sampleConfig true 0)).calibrationFactor = QFloat.fin 0
      ∧ QFloat.lt (QFloat.fin 0)
          (run sampleConfig [Event.userCalibrate (QFloat.fin 0) (fun _ => QFloat.fin 50)]
            (init sampleConfig true 0)).calibrationFactor = false
      ∧ (run sampleConfig [Event.userCalibrate (QFloat.fin 0) (fun _ => QFloat.fin 0)]
          (init sampleConfig true 0)).calibrationFactor = QFloat.nan
      ∧ QFloat.lt (QFloat.fin 0)
          (run sampleConfig [Event.userCalibrate (QFloat.fin 0) (fun _ => QFloat.fin 0)]
            (init sampleConfig true 0)).calibrationFactor = false
      ∧ (run sampleConfig [Event.userCalibrate (QFloat.fin 100) (fun _ => QFloat.fin (-50))]
          (init sampleConfig true 0)).calibrationFactor = QFloat.fin (-2)
      ∧ QFloat.lt (QFloat.fin 0)
          (run sampleConfig [Event.userCalibrate (QFloat.fin 100) (fun _ => QFloat.fin (-50))]
            (init sampleConfig true 0)).calibrationFactor = false := by
  refine ⟨?_, ?_, ?_, ?_, ?_, ?_, ?_⟩ <;> decide!

/-- The known heights the prompt returns are the finite values from 0 to 1000. -/
theorem knownHeight_of_prompt (knownHeight : QFloat)
    (hk : (QFloat.le (QFloat.fin 0) knownHeight
      && QFloat.le knownHeight (QFloat.fin 1000)) = true) :
    ∃ k : ℚ, knownHeight = QFloat.fin k ∧ 0 ≤ k ∧ k ≤ 1000 := by
  cases knownHeight with
  | fin k =>
    simp only [QFloat.le, Bool.and_eq_true, decide_eq_true_eq] at hk
    exact ⟨k, rfl, hk.1, hk.2⟩
  | inf sg => cases sg <;> simp [QFloat.le] at hk
  | nan => simp [QFloat.le] at hk

/-- The sign of a quotient of a known height `k >= 0`: it is greater than 0 exactly when
`k > 0` and the divisor is a finite value that is not negative. -/
theorem QFloat.div_pos_iff (k : ℚ) (hk : 0 ≤ k) (average : QFloat) :
    QFloat.lt (QFloat.fin 0) (QFloat.div (QFloat.fin k) average) = true
      ↔ 0 < k ∧ ∃ a : ℚ, 0 ≤ a ∧ average = QFloat.fin a := by
  cases average with
  | fin a =>
    by_cases ha0 : a = 0
    · subst ha0
      by_cases hk0 : k = 0
      · subst hk0
        simp [QFloat.div, QFloat.lt]
      · have hkpos : 0 < k := lt_of_le_of_ne hk (Ne.symm hk0)
        have hnot : ¬ k < 0 := not_lt.mpr hk
        simp only [QFloat.div, if_true, if_neg hk0, QFloat.lt, hnot, decide_False,
          Bool.not_false, true_iff]
        exact ⟨hkpos, 0, le_refl _, rfl⟩
    · simp only [QFloat.div, if_neg ha0, QFloat.lt, decide_eq_true_eq, QFloat.fin.injEq]
      constructor
      · intro h
        have hkpos : 0 < k := by
          rcases eq_or_lt_of_le hk with h0 | h0
          · rw [← h0] at h; simp at h
          · exact h0
        refine ⟨hkpos, a, ?_, rfl⟩
        by_contra hneg
        have : k / a < 0 := div_neg_of_pos_of_neg hkpos (not_le.mp hneg)
        exact absurd h (not_lt.mpr (le_of_lt this))
      · rintro ⟨hkpos, b, hb, rfl⟩
        exact div_pos hkpos (lt_of_le_of_ne hb (Ne.symm ha0))
  | inf sg =>
    simp [QFloat.div, QFloat.lt]
  | nan =>
    simp [QFloat.div, QFloat.lt]

/-- C16, amended: after the constructor the factor is 1.0 and the offset 0.0; the offset
is 0 in every reachable state and after every calibration. For every known height the
prompt accepts (0 to 1000) and every readings, the factor committed by
`performCalibration` is the floating point quotient of the known height by the average of
the readings, and it is greater than 0 exactly when the known height is greater than 0
and the average is a finite value that is not negative. For a positive average it is the
quotient of the two values; for the average 0, in particular for ten readings of 0, and a
known height greater than 0 it is the positive infinity. -/
theorem calibration_factor_positive_iff (cfg : Config) (portAvailable : Bool)
    (sliderValue : Int) (knownHeight : QFloat) (reading : Nat → QFloat) (s t : State)
    (ht : Reachable cfg t)
    (hk : (QFloat.le (QFloat.fin 0) knownHeight
      && QFloat.le knownHeight (QFloat.fin 1000)) = true) :
    ((init cfg portAvailable sliderValue).calibrationFactor = QFloat.fin 1
        ∧ (init cfg portAvailable sliderValue).calibrationOffset = QFloat.fin 0)
      ∧ t.calibrationOffset = QFloat.fin 0
      ∧ (performCalibration knownHeight reading s).calibrationOffset = QFloat.fin 0
      ∧ (performCalibration knownHeight reading s).calibrationFactor
          = QFloat.div knownHeight
              (QFloat.div (measureLoop reading 10 0 (QFloat.fin 0)) (QFloat.fin 10))
      ∧ (QFloat.lt (QFloat.fin 0)
            (performCalibration knownHeight reading s).calibrationFactor = true
          ↔ QFloat.lt (QFloat.fin 0) knownHeight = true
            ∧ ∃ a : ℚ, 0 ≤ a
              ∧ QFloat.div (measureLoop reading 10 0 (QFloat.fin 0)) (QFloat.fin 10)
                  = QFloat.fin a)
      ∧ (∀ k a : ℚ, knownHeight = QFloat.fin k →
          QFloat.div (measureLoop reading 10 0 (QFloat.fin 0)) (QFloat.fin 10) = QFloat.fin a →
          0 < a →
          (performCalibration knownHeight reading s).calibrationFactor = QFloat.fin (k / a))
      ∧ (QFloat.lt (QFloat.fin 0) knownHeight = true →
          QFloat.div (measureLoop reading 10 0 (QFloat.fin 0)) (QFloat.fin 10) = QFloat.fin 0 →
          (performCalibration knownHeight reading s).calibrationFactor = QFloat.inf false)
      ∧ ((∀ i, reading i = QFloat.fin 0) →
          QFloat.div (measureLoop reading 10 0 (QFloat.fin 0)) (QFloat.fin 10)
            = QFloat.fin 0) := by
  obtain ⟨k, rfl, hk0, _⟩ := knownHeight_of_prompt knownHeight hk
  have hf := performCalibration_factor (QFloat.fin k) reading s
  refine ⟨⟨rfl, rfl⟩, (reachable_controlInvariant cfg t ht).2.2.2, rfl, hf, ?_, ?_, ?_, ?_⟩
  · rw [hf, QFloat.div_pos_iff k hk0]
    simp only [QFloat.lt, decide_eq_true_eq]
  · intro k2 a hk2 ha hapos
    rw [hf, ha, QFloat.div, if_neg (ne_of_gt hapos)]
    simp only [QFloat.fin.injEq] at hk2
    rw [hk2]
  · intro hpos ha
    simp only [QFloat.lt, decide_eq_true_eq] at hpos
    rw [hf, ha, QFloat.div, if_pos rfl, if_neg (ne_of_gt hpos)]
    simp [not_lt.mpr hk0]
  · intro hz
    rw [measureLoop_fin (fun _ => 0) reading hz 10 0 0, QFloat.div]
    simp

theorem calibration_factor_positive_iff_witness :
    Reachable sampleConfig (init sampleConfig true 0)
      ∧ (QFloat.le (QFloat.fin 0) (QFloat.fin 100)
          && QFloat.le (QFloat.fin 100) (QFloat.fin 1000)) = true
      ∧ QFloat.lt (QFloat.fin 0) (QFloat.fin 100) = true
      ∧ (performCalibration (QFloat.fin 100) (fun _ => QFloat.fin 0)
          (init sampleConfig true 0)).calibrationFactor = QFloat.inf false
      ∧ QFloat.lt (QFloat.fin 0)
          (performCalibration (QFloat.fin 100) (fun _ => QFloat.fin 0)
            (init sampleConfig true 0)).calibrationFactor = true :=
  ⟨⟨true, 0, [], rfl⟩, by decide, by decide,
    (calibration_factor_positive_iff sampleConfig true 0 (QFloat.fin 100)
      (fun _ => QFloat.fin 0) (init sampleConfig true 0) (init sampleConfig true 0)
      ⟨true, 0, [], rfl⟩ (by decide)).2.2.2.2.2.2.1 (by decide) average_of_zero_readings,
    (calibration_factor_positive_iff sampleConfig true 0 (QFloat.fin 100)
      (fun _ => QFloat.fin 0) (init sampleConfig true 0) (init sampleConfig true 0)
      ⟨true, 0, [], rfl⟩ (by decide)).2.2.2.2.1.mpr
      ⟨by decide, 0, le_refl _, average_of_zero_readings⟩⟩

/-- C19: with the thresholds 10, 50 and 200 (so that 0 < 10 <= 50 <= 200), the sample
`90,5,0` at distance 5 adds a point to the detection history and at the same time sets the
detection status to `No Object`. -/
theorem near_object_plotted_but_no_object :
    QFloat.lt (QFloat.fin 0) sampleConfig.LASER_ACTIVATION_MIN_RANGE = true
      ∧ QFloat.le sampleConfig.LASER_ACTIVATION_MIN_RANGE
          sampleConfig.LASER_ACTIVATION_MAX_RANGE = true
      ∧ QFloat.le sampleConfig.LASER_ACTIVATION_MAX_RANGE sampleConfig.MAX_DETECTION_RANGE
          = true
      ∧ (init sampleConfig true 0).detectionPoints = []
      ∧ (run sampleConfig [Event.serialData "90,5,0\n".toList]
          (init sampleConfig true 0)).detectionPoints
          = [projectPoint sampleConfig (QFloat.fin 90) (QFloat.fin 5)]
      ∧ (run sampleConfig [Event.serialData "90,5,0\n".toList]
          (init sampleConfig true 0)).rangeLabel = some (QFloat.fin 5)
      ∧ (run sampleConfig [Event.serialData "90,5,0\n".toList]
          (init sampleConfig true 0)).detectionStatusText = some "No Object" := by
  refine ⟨?_, ?_, ?_, ?_, ?_, ?_, ?_⟩ <;> decide!

/-! ### The projection at the right angle -/

/-- On finite values, with a non-zero range, `projectPoint` computes what `projectOver`
computes over the rationals. -/
theorem projectPoint_eq_projectOver (cfg : Config) (m a d : ℚ) (toRadians c s : ℚ → ℚ)
    (hm : cfg.MAX_DETECTION_RANGE = QFloat.fin m) (hm0 : m ≠ 0)
    (ht : ∀ x, cfg.qDegreesToRadians (QFloat.fin x) = QFloat.fin (toRadians x))
    (hc : ∀ x, cfg.qCos (QFloat.fin x) = QFloat.fin (c x))
    (hs : ∀ x, cfg.qSin (QFloat.fin x) = QFloat.fin (s x)) :
    projectPoint cfg (QFloat.fin a) (QFloat.fin d)
      = ⟨QFloat.fin (projectOver toRadians c s m a d).1,
          QFloat.fin (projectOver toRadians c s m a d).2⟩ := by
  unfold projectPoint projectOver scaledDistanceOver r
  simp only [hm, ht, hc, hs, QFloat.div, if_neg hm0, QFloat.mul, QFloat.add, QFloat.sub,
    QFloat.neg]
  congr 2
  ring

/-- C11: over the real numbers, with `qDegreesToRadians d = d * (pi / 180)` and the real
cosine and sine, for every positive `MAX_DETECTION_RANGE` the sample at angle 90 and
distance `MAX_DETECTION_RANGE` has the scaled distance 445, the radius of the display, and
is drawn at `(505, 50)`: no horizontal offset from the origin `(505, 495)` and 445 above
it. -/
theorem project_right_angle_at_max_range (maxRange : ℝ) (h : 0 < maxRange) :
    scaledDistanceOver maxRange maxRange = 445
      ∧ projectOver (fun d => d * (Real.pi / 180)) Real.cos Real.sin maxRange 90 maxRange
          = (505, 50)
      ∧ (projectOver (fun d => d * (Real.pi / 180)) Real.cos Real.sin maxRange 90
          maxRange).1 - 505 = 0
      ∧ (projectOver (fun d => d * (Real.pi / 180)) Real.cos Real.sin maxRange 90
          maxRange).2 = 495 - 445 := by
  have hs : scaledDistanceOver maxRange maxRange = 445 := by
    unfold scaledDistanceOver
    rw [div_self (ne_of_gt h), one_mul]
  have ha : (90 : ℝ) * (Real.pi / 180) = Real.pi / 2 := by ring
  have hp : projectOver (fun d => d * (Real.pi / 180)) Real.cos Real.sin maxRange 90 maxRange
      = (505, 50) := by
    unfold projectOver
    simp only [hs, ha, Real.cos_pi_div_two, Real.sin_pi_div_two]
    norm_num
  refine ⟨hs, hp, ?_, ?_⟩
  · rw [hp]; norm_num
  · rw [hp]; norm_num

theorem project_right_angle_at_max_range_witness :
    (0 : ℝ) < 200
      ∧ projectOver (fun d => d * (Real.pi / 180)) Real.cos Real.sin (200 : ℝ) 90 200
          = (505, 50) :=
  ⟨by norm_num, (project_right_angle_at_max_range 200 (by norm_num)).2.1⟩

/-! ### Reading bytes in chunks -/

/-- Any fuel not below the length of the data gives the same decoding. -/
theorem decodeLoop_fuel (n : Nat) :
    ∀ (data : QByteArray) (f1 f2 : Nat), data.length ≤ n → data.length ≤ f1 →
      data.length ≤ f2 → decodeLoop f1 data = decodeLoop f2 data := by
  induction n with
  | zero =>
    intro data f1 f2 hn _ _
    have hd : data = [] := List.length_eq_zero.mp (Nat.le_zero.mp hn)
    subst hd
    cases f1 <;> cases f2 <;> rfl
  | succ n ih =>
    intro data f1 f2 hn h1 h2
    cases data with
    | nil => cases f1 <;> cases f2 <;> rfl
    | cons b rest =>
      simp only [List.length_cons] at hn h1 h2
      obtain ⟨g1, rfl⟩ : ∃ g, f1 = g + 1 := ⟨f1 - 1, by omega⟩
      obtain ⟨g2, rfl⟩ : ∃ g, f2 = g + 1 := ⟨f2 - 1, by omega⟩
      simp only [decodeLoop]
      split
      · rw [ih rest g1 g2 (by omega) (by omega) (by omega)]
      · split
        · rename_i c k _
          have hk : (rest.drop k).length ≤ rest.length := by
            rw [List.length_drop]; omega
          rw [ih (rest.drop k) g1 g2 (by omega) (by omega) (by omega)]
        · rw [ih rest g1 g2 (by omega) (by omega) (by omega)]

/-- ASCII bytes are decoded one by one to their characters. -/
theorem decodeLoop_ascii (f : Nat) :
    ∀ (data : QByteArray), data.length ≤ f → (∀ b ∈ data, b < 128) →
      decodeLoop f data = data.map Char.ofNat := by
  induction f with
  | zero =>
    intro data hf _
    have hd : data = [] := List.length_eq_zero.mp (Nat.le_zero.mp hf)
    subst hd
    rfl
  | succ f ih =>
    intro data hf ha
    cases data with
    | nil => rfl
    | cons b rest =>
      simp only [List.length_cons] at hf
      have hb : b < 0x80 := ha b (by simp)
      simp only [decodeLoop, if_pos hb, List.map_cons]
      rw [ih rest (by omega) (fun x hx => ha x (by simp [hx]))]

theorem fromUtf8_ascii (data : QByteArray) (ha : ∀ b ∈ data, b < 128) :
    fromUtf8 data = data.map Char.ofNat := by
  unfold fromUtf8
  have hbom : ¬ (data.take 3 = [0xEF, 0xBB, 0xBF]) := by
    intro h
    have hm : (0xEF : Nat) ∈ data.take 3 := by rw [h]; simp
    have := ha _ (List.mem_of_mem_take hm)
    omega
  simp only [if_neg hbom]
  exact decodeLoop_ascii _ data (le_refl _) ha

/-- Reading byte chunks one after another frames the concatenation of their separate
decodings. -/
theorem feedByteChunks_eq (chunks : List QByteArray) :
    feedByteChunks chunks = frameLines [] (chunks.map fromUtf8).flatten := by
  rw [← feedChunks_eq_frameLines]
  unfold feedByteChunks feedChunks feedBytes
  rw [List.foldl_map]

/-- C3 fails as stated: the stream `C3 A9 0A` (the letter e with acute accent and a
newline) read whole gives the line made of that letter, but read as `C3` and then `A9 0A`
gives a line of two replacement characters; likewise `E2 80 83 0A` read whole gives an
empty line and read as `E2 80` and then `83 0A` gives a line of three replacement
characters. -/
theorem chunked_decoding_changes_lines :
    feedByteChunks [[0xC3, 0xA9, 0x0A]] = ([[Char.ofNat 0xE9]], [])
      ∧ feedByteChunks [[0xC3], [0xA9, 0x0A]]
          = ([[replacementCharacter, replacementCharacter]], [])
      ∧ feedByteChunks [[0xC3], [0xA9, 0x0A]] ≠ feedByteChunks [[0xC3, 0xA9, 0x0A]]
      ∧ feedByteChunks [[0xE2, 0x80, 0x83, 0x0A]] = ([[]], [])
      ∧ feedByteChunks [[0xE2, 0x80], [0x83, 0x0A]]
          = ([[replacementCharacter, replacementCharacter, replacementCharacter]], [])
      ∧ feedByteChunks [[0xE2, 0x80], [0x83, 0x0A]]
          ≠ feedByteChunks [[0xE2, 0x80, 0x83, 0x0A]] := by
  refine ⟨?_, ?_, ?_, ?_, ?_, ?_⟩ <;> decide

/-- C3, amended: for every byte stream and every splitting of it into consecutive chunks
such that decoding the chunks one by one gives the text of the whole stream, reading the
chunks one after another (from an empty buffer) gives the same trimmed lines in the same
order and the same residual buffer as reading the whole stream in a single call. This is
so in particular whenever all the bytes are ASCII. In every case the extraction loop runs
until no newline is left in the buffer. -/
theorem byte_chunk_invariance (chunks : List QByteArray) :
    ((chunks.map fromUtf8).flatten = fromUtf8 chunks.flatten →
        feedByteChunks chunks = feedByteChunks [chunks.flatten])
      ∧ ((∀ c ∈ chunks, ∀ b ∈ c, b < 128) →
          (chunks.map fromUtf8).flatten = fromUtf8 chunks.flatten
            ∧ feedByteChunks chunks = feedByteChunks [chunks.flatten])
      ∧ '\n' ∉ (feedByteChunks chunks).2
      ∧ '\n' ∉ (feedByteChunks [chunks.flatten]).2 := by
  have key : (chunks.map fromUtf8).flatten = fromUtf8 chunks.flatten →
      feedByteChunks chunks = feedByteChunks [chunks.flatten] := by
    intro h
    rw [feedByteChunks_eq, feedByteChunks_eq, h]
    simp
  have ascii : (∀ c ∈ chunks, ∀ b ∈ c, b < 128) →
      (chunks.map fromUtf8).flatten = fromUtf8 chunks.flatten := by
    intro ha
    have hall : ∀ b ∈ chunks.flatten, b < 128 := by
      intro b hb
      obtain ⟨c, hc, hbc⟩ := List.mem_flatten.mp hb
      exact ha c hc b hbc
    rw [fromUtf8_ascii _ hall, List.map_flatten]
    congr 1
    apply List.map_congr_left
    intro c hc
    exact fromUtf8_ascii c (ha c hc)
  refine ⟨key, fun ha => ⟨ascii ha, key (ascii ha)⟩, ?_, ?_⟩
  · rw [feedByteChunks_eq]; exact frameLines_complete _ _
  · rw [feedByteChunks_eq]; exact frameLines_complete _ _

theorem byte_chunk_invariance_witness :
    (∀ c ∈ [[51, 48, 44, 49, 50], [48, 46, 53, 44, 49, 53, 46, 50, 10, 76, 65], [83, 69]],
        ∀ b ∈ c, b < 128)
      ∧ feedByteChunks
          [[51, 48, 44, 49, 50], [48, 46, 53, 44, 49, 53, 46, 50, 10, 76, 65], [83, 69]]
        = feedByteChunks
          [[51, 48, 44, 49, 50, 48, 46, 53, 44, 49, 53, 46, 50, 10, 76, 65, 83, 69]]
      ∧ feedByteChunks
          [[51, 48, 44, 49, 50], [48, 46, 53, 44, 49, 53, 46, 50, 10, 76, 65], [83, 69]]
        = (["30,120.5,15.2".toList], "LASE".toList) :=
  ⟨by decide,
    ((byte_chunk_invariance
      [[51, 48, 44, 49, 50], [48, 46, 53, 44, 49, 53, 46, 50, 10, 76, 65], [83, 69]]).2.1
      (by decide)).2,
    by decide⟩

end Radar
